import Mathlib

/-!
Verification development for the petanque tournament scheduler.

This file gives a shallow embedding in Lean 4 of the core of the repository:
the domain model (src/petanque_manager/core/models.py), the constraint
tracker and scoring function, the optimal match-distribution solver, the
deterministic backtracking round generator, and the tracker-threading part
of the heuristic round generator (src/petanque_manager/core/scheduler.py),
together with theorems settling the frozen claims about them.

Conventions of the embedding:
- Player ids are natural numbers; Python int scores and round indices are
  modelled as integers so that the lower-bound validations are meaningful.
- Python floats only ever hold small dyadic values here (penalties 10, 5, 2
  and 1.5 and sums of their products), so scores are modelled exactly as
  rationals.
- A ConstraintTracker is represented by its single state field, the list of
  recorded matches; every derived relation of the Python class is a pure
  function of that list, defined below by direct translation of the loops.
- Fallible constructors and operations return Except String.
-/

set_option maxRecDepth 20000

namespace Petanque

/-- Tournament mode, from models.py (TournamentMode). -/
inductive TournamentMode where
  | triplette
  | doublette
deriving DecidableEq, Repr

/-- Match format, from models.py (MatchFormat): 3v3, 2v2 or hybrid 3v2. -/
inductive MatchFormat where
  | triplette
  | doublette
  | hybrid
deriving DecidableEq, Repr

/-- Player role, from models.py (PlayerRole). -/
inductive PlayerRole where
  | tireur
  | pointeur
  | milieu
deriving DecidableEq, Repr

/-- Player, from models.py: only the fields the scheduler consumes (the id,
absent until persisted, and the role-capability list). -/
structure Player where
  id : Option Nat
  roles : List PlayerRole
deriving DecidableEq, Repr

/-- Match, from models.py: round index, terrain label, format, the two teams
as lists of player ids, and the optional scores. The creation timestamp and
database id are irrelevant to every claim and omitted. -/
structure Match where
  round_index : Int
  terrain_label : String
  format : MatchFormat
  team_a_player_ids : List Nat
  team_b_player_ids : List Nat
  score_a : Option Int
  score_b : Option Int
deriving DecidableEq, Repr

/-- Match.all_player_ids from models.py: concatenation of both teams. -/
def Match.all_player_ids (m : Match) : List Nat :=
  m.team_a_player_ids ++ m.team_b_player_ids

/-- Match.is_complete from models.py: both scores entered. -/
def Match.is_complete (m : Match) : Bool :=
  m.score_a.isSome && m.score_b.isSome

def errRoundIndex : String := "round_index must be non-negative"
def errTerrainLabel : String := "terrain_label must have between 1 and 10 characters"
def errTeamSize : String := "Team must have 2 or 3 players"
def errTeamDup : String := "Team cannot have duplicate players"
def errScoreRange : String := "Score must be between 0 and 13"
def errTripletteSize : String := "Triplette format requires 3v3"
def errDoubletteSize : String := "Doublette format requires 2v2"
def errHybridSize : String := "Hybrid format requires 3v2 or 2v3"
def errOverlap : String := "A player cannot play against themselves"

/-- Out-of-range test for one optional score: the negation of the pydantic
bounds ge=0, le=13 on score_a / score_b of models.py Match. -/
def scoreOutOfRange (s : Option Int) : Bool :=
  match s with
  | none => false
  | some v => decide (v < 0 ∨ 13 < v)

/-- Validating constructor of models.py Match: the pydantic field
validations in field order (round_index ge 0, terrain label length 1..10,
per-team size bound then duplicate check, score bounds) followed by
model_post_init (team sizes matching the declared format, then the
team-overlap check). Succeeds with the constructed Match exactly when
every check passes. -/
def mkMatch (round_index : Int) (terrain_label : String) (fmt : MatchFormat)
    (team_a team_b : List Nat) (score_a score_b : Option Int) :
    Except String Match :=
  if round_index < 0 then .error errRoundIndex
  else if terrain_label.length < 1 ∨ 10 < terrain_label.length then .error errTerrainLabel
  else if team_a.length < 2 ∨ 3 < team_a.length then .error errTeamSize
  else if ¬ team_a.Nodup then .error errTeamDup
  else if team_b.length < 2 ∨ 3 < team_b.length then .error errTeamSize
  else if ¬ team_b.Nodup then .error errTeamDup
  else if scoreOutOfRange score_a then .error errScoreRange
  else if scoreOutOfRange score_b then .error errScoreRange
  else if fmt = MatchFormat.triplette ∧ ¬ (team_a.length = 3 ∧ team_b.length = 3) then
    .error errTripletteSize
  else if fmt = MatchFormat.doublette ∧ ¬ (team_a.length = 2 ∧ team_b.length = 2) then
    .error errDoubletteSize
  else if fmt = MatchFormat.hybrid ∧
      ¬ ((team_a.length = 3 ∧ team_b.length = 2) ∨ (team_a.length = 2 ∧ team_b.length = 3)) then
    .error errHybridSize
  else if ¬ (team_a ++ team_b).Nodup then .error errOverlap
  else .ok (Match.mk round_index terrain_label fmt team_a team_b score_a score_b)

/-- Team sizes demanded by models.py model_post_init for each declared
format: full 3-and-3, reduced 2-and-2, hybrid 3-and-2 in either order. -/
def formatSizesOk (f : MatchFormat) (team_a team_b : List Nat) : Prop :=
  match f with
  | MatchFormat.triplette => team_a.length = 3 ∧ team_b.length = 3
  | MatchFormat.doublette => team_a.length = 2 ∧ team_b.length = 2
  | MatchFormat.hybrid =>
      (team_a.length = 3 ∧ team_b.length = 2) ∨ (team_a.length = 2 ∧ team_b.length = 3)

/-! ### Constraint tracker (scheduler.py, class ConstraintTracker)

The tracker state is its list of matches; add_match appends. Every derived
relation below translates the corresponding property loop. -/

/-- Ordered pairs (team[i], team[j]) with i < j, as produced by the nested
indexed iteration used throughout scheduler.py. -/
def pairsOf : List Nat → List (Nat × Nat)
  | [] => []
  | x :: xs => xs.map (fun y => (x, y)) ++ pairsOf xs

/-- Unordered-pair key (min, max), from get_partner_count / get_opponent_count. -/
def pairKey (p q : Nat) : Nat × Nat := (min p q, max p q)

/-- All partner pair keys one match contributes (both teams, indexed pairs),
as in the partner_counts property loop. -/
def matchPartnerPairs (m : Match) : List (Nat × Nat) :=
  (pairsOf m.team_a_player_ids ++ pairsOf m.team_b_player_ids).map
    (fun pq => pairKey pq.1 pq.2)

/-- All opponent pair keys one match contributes (cross product of the
teams), as in the opponent_counts property loop. -/
def matchOpponentPairs (m : Match) : List (Nat × Nat) :=
  m.team_a_player_ids.flatMap (fun p => m.team_b_player_ids.map (fun q => pairKey p q))

/-- ConstraintTracker.get_partner_count: how many times the unordered pair
has been partners across the recorded matches (partner_counts property). -/
def partnerCount (ms : List Match) (p q : Nat) : Nat :=
  (ms.map (fun m => (matchPartnerPairs m).count (pairKey p q))).sum

/-- ConstraintTracker.get_opponent_count: how many times the unordered pair
has been opponents across the recorded matches (opponent_counts property). -/
def opponentCount (ms : List Match) (p q : Nat) : Nat :=
  (ms.map (fun m => (matchOpponentPairs m).count (pairKey p q))).sum

/-- Membership in the partners relation of the tracker (partners property):
q is in partners[p] exactly when some recorded match has them on one team. -/
def isPartnerOf (ms : List Match) (p q : Nat) : Bool :=
  ms.any (fun m => (matchPartnerPairs m).contains (pairKey p q))

/-- Membership in the opponents relation of the tracker (opponents
property). -/
def isOpponentOf (ms : List Match) (p q : Nat) : Bool :=
  ms.any (fun m => (matchOpponentPairs m).contains (pairKey p q))

/-- Membership in the terrains relation (terrains property): the player has
a recorded match on that terrain. The missing-key case of the Python dict
lookup is the vacuous any over an empty match set. -/
def playedTerrain (ms : List Match) (pid : Nat) (ter : String) : Bool :=
  ms.any (fun m => m.all_player_ids.contains pid && m.terrain_label == ter)

/-- Fallback-format test of scheduler.py (used identically in score_match
and in the fallback_formats property): true only for the pure opposite
format of the tournament mode; hybrid is not a fallback here. -/
def isFallbackFormat (mode : TournamentMode) (f : MatchFormat) : Bool :=
  (mode = TournamentMode.triplette ∧ f = MatchFormat.doublette) ∨
    (mode = TournamentMode.doublette ∧ f = MatchFormat.triplette)

/-- ConstraintTracker.fallback_formats entry for one player: the number of
recorded fallback-format matches that include the player. -/
def fallbackCount (mode : TournamentMode) (ms : List Match) (pid : Nat) : Nat :=
  (ms.map (fun m =>
    if isFallbackFormat mode m.format && m.all_player_ids.contains pid then 1 else 0)).sum

/-- Scoring weight, from ConfigScoringMatchs: repeated_partners_penalty. -/
def repeatedPartnersPenalty : ℚ := 10

/-- Scoring weight, from ConfigScoringMatchs: repeated_opponents_penalty. -/
def repeatedOpponentsPenalty : ℚ := 5

/-- Scoring weight, from ConfigScoringMatchs: repeated_terrains_penalty. -/
def repeatedTerrainsPenalty : ℚ := 2

/-- Scoring weight, from ConfigScoringMatchs: fallback_format_penalty_per_player. -/
def fallbackFormatPenaltyPerPlayer : ℚ := 3 / 2

/-- ConstraintTracker.score_match, translated loop by loop: squared-count
partner and opponent penalties for pairs already recorded, a flat terrain
penalty per player already recorded on the terrain, and the per-player
fallback penalty exactly when isFallbackFormat holds for the scored format. -/
def scoreMatch (mode : TournamentMode) (ms : List Match)
    (team_a team_b : List Nat) (terrain : String) (match_format : MatchFormat) : ℚ :=
  let partnerPart : ℚ :=
    ((pairsOf team_a ++ pairsOf team_b).map (fun pq =>
      let c := partnerCount ms pq.1 pq.2
      if 0 < c then repeatedPartnersPenalty * (c : ℚ) ^ 2 else 0)).sum
  let opponentPart : ℚ :=
    ((team_a.flatMap (fun p => team_b.map (fun q => (p, q)))).map (fun pq =>
      let c := opponentCount ms pq.1 pq.2
      if 0 < c then repeatedOpponentsPenalty * (c : ℚ) ^ 2 else 0)).sum
  let terrainPart : ℚ :=
    ((team_a ++ team_b).map (fun pid =>
      if playedTerrain ms pid terrain then repeatedTerrainsPenalty else 0)).sum
  let fallbackPart : ℚ :=
    if isFallbackFormat mode match_format then
      fallbackFormatPenaltyPerPlayer * (((team_a ++ team_b).length : ℚ))
    else 0
  partnerPart + opponentPart + terrainPart + fallbackPart

/-- TournamentScheduler._score_matches_with_tracker: sum of score_match over
the round's matches, all against the same tracker state. -/
def scoreMatches (mode : TournamentMode) (trk : List Match) (ms : List Match) : ℚ :=
  (ms.map (fun m =>
    scoreMatch mode trk m.team_a_player_ids m.team_b_player_ids
      m.terrain_label m.format)).sum

/-- The pure format preferred by a tournament mode. -/
def preferredFormat : TournamentMode → MatchFormat
  | TournamentMode.triplette => MatchFormat.triplette
  | TournamentMode.doublette => MatchFormat.doublette

/-- The pure format opposite to a tournament mode's preference. -/
def oppositeFormat : TournamentMode → MatchFormat
  | TournamentMode.triplette => MatchFormat.doublette
  | TournamentMode.doublette => MatchFormat.triplette

/-- Contribution of one intra-team pair to score_match, as a function of the
number of times the pair is already recorded as partners. -/
def partnerContrib (k : Nat) : ℚ :=
  if 0 < k then repeatedPartnersPenalty * (k : ℚ) ^ 2 else 0

/-- Contribution of one inter-team pair to score_match, as a function of the
number of times the pair is already recorded as opponents. -/
def opponentContrib (k : Nat) : ℚ :=
  if 0 < k then repeatedOpponentsPenalty * (k : ℚ) ^ 2 else 0

/-! ### Optimal match distribution (scheduler.py, _find_optimal_match_distribution) -/

/-- Total players seated by a (full, reduced, hybrid) match triple: a 3v3
match seats 6, a 2v2 match seats 4, a hybrid 3v2 match seats 5. -/
def seatedPlayers (t : Nat × Nat × Nat) : Nat :=
  6 * t.1 + 4 * t.2.1 + 5 * t.2.2

/-- Tie-break preference of _find_optimal_match_distribution between two
equal-bench triples: in triplette mode, strictly more 3v3 matches, or
equally many and strictly fewer hybrids; in doublette mode the same with
2v2 in place of 3v3. -/
def distPrefer (mode : TournamentMode) (t old : Nat × Nat × Nat) : Bool :=
  match mode with
  | TournamentMode.triplette =>
      decide (old.1 < t.1) || (decide (t.1 = old.1) && decide (t.2.2 < old.2.2))
  | TournamentMode.doublette =>
      decide (old.2.1 < t.2.1) || (decide (t.2.1 = old.2.1) && decide (t.2.2 < old.2.2))

/-- One iteration of the candidate loop of _find_optimal_match_distribution:
skip triples that over-seat, replace the best on strictly fewer benched
players, and on an exact tie replace only when the preference holds. The
state is the current best triple together with its bench count. -/
def distStep (mode : TournamentMode) (n : Nat)
    (st : (Nat × Nat × Nat) × Int) (t : Nat × Nat × Nat) : (Nat × Nat × Nat) × Int :=
  let bench : Int := (n : Int) - (seatedPlayers t : Int)
  if bench < 0 then st
  else if bench < st.2 then (t, bench)
  else if bench = st.2 then (if distPrefer mode t st.1 then (t, st.2) else st)
  else st

/-- The exact candidate enumeration of _find_optimal_match_distribution:
all triples with each component bounded by the corresponding floor
division, in the order of the three nested range loops. -/
def distTriples (n : Nat) : List (Nat × Nat × Nat) :=
  (List.range (n / 6 + 1)).flatMap (fun a =>
    (List.range (n / 4 + 1)).flatMap (fun b =>
      (List.range (n / 5 + 1)).map (fun c => (a, b, c))))

/-- The solver _find_optimal_match_distribution: below 4 players scheduling
is infeasible and the zero triple is returned; otherwise the candidate
loop runs from the initial state (best (0,0,0), bench n). The components
are natural numbers, hence non-negative. The trailing Python expression
best_solution or (0,0,0) always yields best_solution, a non-empty tuple
being truthy, and is therefore not modelled separately. -/
def findOptimalMatchDistribution (n : Nat) (mode : TournamentMode) : Nat × Nat × Nat :=
  if n < 4 then (0, 0, 0)
  else ((distTriples n).foldl (distStep mode n) ((0, 0, 0), (n : Int))).1

/-! ### Terrain labels (utils/terrain_labels.py, get_terrain_label) -/

/-- The label generator get_terrain_label for indices in range: single
letters A..Z then double letters AA..ZZ. The ValueError branches for
index >= 702 are outside every claim and the function is modelled on the
in-range formula. -/
def getTerrainLabel (index : Nat) : String :=
  if index < 26 then String.mk [Char.ofNat (65 + index)]
  else
    let adjusted := index - 26
    String.mk [Char.ofNat (65 + adjusted / 26), Char.ofNat (65 + adjusted % 26)]

/-! ### Team-role validation and team enumeration (scheduler.py) -/

/-- Number of players in the team eligible for the given role. -/
def countRole (team : List Player) (r : PlayerRole) : Nat :=
  team.countP (fun p => p.roles.contains r)

/-- Number of players in the team eligible for pointeur or milieu. -/
def countPointeurOrMilieu (team : List Player) : Nat :=
  team.countP (fun p =>
    p.roles.contains PlayerRole.pointeur || p.roles.contains PlayerRole.milieu)

/-- validate_team_roles from scheduler.py. The Python doublette-mode and
fallback doublette branches are textually identical and collapse here; a
non-triplette format falls into the doublette branch exactly as the Python
else does. -/
def validateTeamRoles (team : List Player) (f : MatchFormat) (mode : TournamentMode) : Bool :=
  if f = MatchFormat.triplette then
    if team.length ≠ 3 then false
    else if mode = TournamentMode.triplette then
      decide (1 ≤ countRole team PlayerRole.tireur) &&
        decide (1 ≤ countRole team PlayerRole.pointeur) &&
        decide (1 ≤ countRole team PlayerRole.milieu)
    else
      decide (1 ≤ countRole team PlayerRole.tireur) &&
        decide (2 ≤ countPointeurOrMilieu team)
  else
    if team.length ≠ 2 then false
    else
      decide (1 ≤ countRole team PlayerRole.tireur) &&
        decide (1 ≤ countPointeurOrMilieu team)

/-- Combinations in the order of itertools.combinations: all sublists of
the given length, preserving element order. -/
def combinations {α : Type} : Nat → List α → List (List α)
  | 0, _ => [[]]
  | _ + 1, [] => []
  | n + 1, x :: xs => (combinations n xs).map (fun c => x :: c) ++ combinations (n + 1) xs

/-- Result of _build_all_valid_teams: the role-valid 3-player and 2-player
teams, each team a list of player ids. -/
structure ValidTeams where
  triplette : List (List Nat)
  doublette : List (List Nat)
deriving DecidableEq, Repr

/-- The players of the roster whose id lies in the combination, in roster
order, as in the Python list comprehension of _build_all_valid_teams. -/
def teamPlayersOf (players : List Player) (combo : List Nat) : List Player :=
  players.filter (fun p =>
    match p.id with
    | some i => combo.contains i
    | none => false)

/-- TournamentScheduler._build_all_valid_teams: enumerate the id
combinations of size 3 and 2 over players having an id, keeping those
whose player set passes validate_team_roles for the format. -/
def buildAllValidTeams (players : List Player) (mode : TournamentMode) : ValidTeams :=
  let ids := players.filterMap (fun p => p.id)
  ValidTeams.mk
    ((combinations 3 ids).filter (fun c =>
      validateTeamRoles (teamPlayersOf players c) MatchFormat.triplette mode))
    ((combinations 2 ids).filter (fun c =>
      validateTeamRoles (teamPlayersOf players c) MatchFormat.doublette mode))

/-- Lookup of the valid-team dictionary by format. The Python dictionary
has no hybrid key and no requirement ever queries it. -/
def teamsFor (vt : ValidTeams) : MatchFormat → List (List Nat)
  | MatchFormat.triplette => vt.triplette
  | MatchFormat.doublette => vt.doublette
  | MatchFormat.hybrid => []

/-! ### Deterministic backtracking scheduler (scheduler.py) -/

/-- Constraint levels of scheduler.py ConstraintLevel: STRICT. -/
def levelStrict : Nat := 0

/-- Constraint levels: ALLOW_REPEATED_OPPONENTS. -/
def levelAllowRepeatedOpponents : Nat := 1

/-- Constraint levels: ALLOW_REPEATED_PARTNERS. -/
def levelAllowRepeatedPartners : Nat := 2

/-- TournamentScheduler._is_match_valid_with_tracker: below the
allow-repeated-partners level no intra-team pair may have any recorded
partner count, otherwise at most 1; below the allow-repeated-opponents
level no cross pair may have any recorded opponent count, otherwise at
most 1. -/
def isMatchValidWithTracker (team_a team_b : List Nat) (level : Nat)
    (trk : List Match) : Bool :=
  ((pairsOf team_a ++ pairsOf team_b).all (fun pq =>
    let c := partnerCount trk pq.1 pq.2
    if level < levelAllowRepeatedPartners then decide (c = 0) else decide (c < 2))) &&
  ((team_a.flatMap (fun p => team_b.map (fun q => (p, q)))).all (fun pq =>
    let c := opponentCount trk pq.1 pq.2
    if level < levelAllowRepeatedOpponents then decide (c = 0) else decide (c < 2)))

/-- First hit of a candidate list under a fallible continuation: the
functional form of a Python for loop that returns the first successful
recursive result and otherwise falls through. -/
def firstSome {α β : Type} (l : List α) (f : α → Option β) : Option β :=
  match l with
  | [] => none
  | x :: xs =>
    match f x with
    | some b => some b
    | none => firstSome xs f

/-- The match-requirement list built by _backtrack_find_matches: the 3v3
slots, then the 2v2 slots, then the hybrid 3v2 slots, each as a pair of
team formats. -/
def buildMatchRequirements (nb3 nb2 nbh : Nat) : List (MatchFormat × MatchFormat) :=
  List.replicate nb3 (MatchFormat.triplette, MatchFormat.triplette) ++
    List.replicate nb2 (MatchFormat.doublette, MatchFormat.doublette) ++
    List.replicate nbh (MatchFormat.triplette, MatchFormat.doublette)

/-- TournamentScheduler._backtrack_recursive, with the mutable search state
(used player set, accumulated matches, scratch tracker, slot index) passed
explicitly; the Python mutate-then-undo discipline corresponds to the
purely functional threading. Candidate teams for side A are filtered
against the used set before side A is chosen; side B candidates are
filtered after side A's players are marked used; a candidate match is kept
only if _is_match_valid_with_tracker accepts it against the scratch
tracker, which then also records it for the recursion. The dead
format_b-is-None branches of the Python (requirements always carry two
formats) are not modelled. -/
def btRec (vt : ValidTeams) (level : Nat) (roundIndex : Nat) :
    List (MatchFormat × MatchFormat) → List Nat → List Match → List Match → Nat →
      Option (List Match)
  | [], _used, acc, _trk, _idx => some acc
  | (fa, fb) :: rest, used, acc, trk, idx =>
    let teamsA := (teamsFor vt fa).filter (fun t => t.all (fun p => ¬ used.contains p))
    firstSome teamsA (fun ta =>
      let used1 := used ++ ta
      let teamsB := (teamsFor vt fb).filter (fun t => t.all (fun p => ¬ used1.contains p))
      firstSome teamsB (fun tb =>
        if isMatchValidWithTracker ta tb level trk then
          let fmt := if fa = fb then fa else MatchFormat.hybrid
          let m := Match.mk (roundIndex : Int) (getTerrainLabel idx) fmt ta tb none none
          btRec vt level roundIndex rest (used1 ++ tb) (acc ++ [m]) (trk ++ [m]) (idx + 1)
        else none))

/-- TournamentScheduler._backtrack_find_matches: build the requirement
list, return the empty round when it is empty, and otherwise run the
recursion from no used players, no matches, and a scratch tracker seeded
with a copy of the live tracker (the prior matches). -/
def btFindMatches (vt : ValidTeams) (nb3 nb2 nbh roundIndex level : Nat)
    (prior : List Match) : Option (List Match) :=
  let reqs := buildMatchRequirements nb3 nb2 nbh
  if reqs.isEmpty then some []
  else btRec vt level roundIndex reqs [] [] prior 0

def errNotEnoughPlayers : String := "Need at least 4 players to generate matches"
def errRelaxedFailed : String :=
  "Unable to generate valid round even with relaxed constraints. This may indicate too many rounds for the number of players."
def errNoMatches : String := "Could not generate any matches"
def errWrongMatchCount : String := "Match generation error: unexpected number of generated matches"

/-- TournamentScheduler.generate_round_deterministic: the tracker is
rebuilt from the supplied previous rounds (given here as their flattened
match list), fewer than 4 players is infeasible, and the three constraint
levels are tried in the fixed order STRICT, ALLOW_REPEATED_OPPONENTS,
ALLOW_REPEATED_PARTNERS, returning the first complete assignment with its
level and failing after the most relaxed level. The returned matches are
exactly the backtracking result; quality-report construction and the
subsequent live-tracker update are modelled separately. -/
def generateRoundDeterministic (mode : TournamentMode) (players : List Player)
    (roundIndex : Nat) (prior : List Match) : Except String (List Match × Nat) :=
  if players.length < 4 then .error errNotEnoughPlayers
  else
    let d := findOptimalMatchDistribution players.length mode
    let vt := buildAllValidTeams players mode
    match btFindMatches vt d.1 d.2.1 d.2.2 roundIndex levelStrict prior with
    | some ms => .ok (ms, levelStrict)
    | none =>
      match btFindMatches vt d.1 d.2.1 d.2.2 roundIndex levelAllowRepeatedOpponents prior with
      | some ms => .ok (ms, levelAllowRepeatedOpponents)
      | none =>
        match btFindMatches vt d.1 d.2.1 d.2.2 roundIndex levelAllowRepeatedPartners prior with
        | some ms => .ok (ms, levelAllowRepeatedPartners)
        | none => .error errRelaxedFailed

/-- No-repeat property of one match against a match history: no intra-team
pair has ever been partners and no cross pair has ever been opponents in
the history. -/
def strictOkAgainst (history : List Match) (m : Match) : Prop :=
  (∀ pq ∈ pairsOf m.team_a_player_ids ++ pairsOf m.team_b_player_ids,
    partnerCount history pq.1 pq.2 = 0) ∧
  (∀ p ∈ m.team_a_player_ids, ∀ q ∈ m.team_b_player_ids,
    opponentCount history p q = 0)

/-! ### Heuristic generation loop (scheduler.py, _generate_matches_for_round)

The randomized team picker _form_team is abstracted as an explicit
function argument from the available ids, the requested size and the
format to an optional team: random.shuffle makes its choice
non-deterministic, and every theorem below holds for every such chooser.
What remains is the exact control flow of the surrounding loops. -/

/-- Mutable state of _generate_matches_for_round: the available player
ids, the matches built so far, the tracker being updated as matches are
created, and the next terrain index. -/
structure GenState where
  available : List Nat
  roundMatches : List Match
  trk : List Match
  terrainIdx : Nat
deriving DecidableEq, Repr

/-- Removal of the members of a formed team from the available pool, one
list.remove per player. -/
def removeAll (l : List Nat) (team : List Nat) : List Nat :=
  team.foldl List.erase l

/-- One of the three match-generation loops of
_generate_matches_for_round, parameterized by the team formats, the
resulting match format, and the minimum pool size guarding an iteration.
On a failed first team the loop breaks with the state unchanged; on a
failed second team the first team is appended back to the pool and the
loop breaks; otherwise the match is recorded in both the match list and
the tracker and the terrain index advances. -/
def genLoop (ft : List Nat → Nat → MatchFormat → Option (List Nat))
    (roundIndex : Nat) (fmtA fmtB matchFmt : MatchFormat)
    (minPool sizeA sizeB : Nat) : Nat → GenState → GenState
  | 0, st => st
  | n + 1, st =>
    if st.available.length < minPool then st
    else
      match ft st.available sizeA fmtA with
      | none => st
      | some ta =>
        let avail1 := removeAll st.available ta
        match ft avail1 sizeB fmtB with
        | none => GenState.mk (avail1 ++ ta) st.roundMatches st.trk st.terrainIdx
        | some tb =>
          let m := Match.mk (roundIndex : Int) (getTerrainLabel st.terrainIdx) matchFmt
            ta tb none none
          genLoop ft roundIndex fmtA fmtB matchFmt minPool sizeA sizeB n
            (GenState.mk (removeAll avail1 tb) (st.roundMatches ++ [m]) (st.trk ++ [m])
              (st.terrainIdx + 1))

/-- TournamentScheduler._generate_matches_for_round: compute the optimal
distribution for the player count, run the 3v3, 2v2 and hybrid loops in
order on a state whose tracker starts as the passed tracker, and fail if
no match was generated or the match count differs from the distribution
total. On success it returns the matches together with the final tracker
state that generate_round then scores them against. -/
def genMatchesForRound (ft : List Nat → Nat → MatchFormat → Option (List Nat))
    (mode : TournamentMode) (players : List Nat) (roundIndex : Nat)
    (trk0 : List Match) : Except String (List Match × List Match) :=
  let d := findOptimalMatchDistribution players.length mode
  let st0 := GenState.mk players [] trk0 0
  let st1 := genLoop ft roundIndex MatchFormat.triplette MatchFormat.triplette
    MatchFormat.triplette 6 3 3 d.1 st0
  let st2 := genLoop ft roundIndex MatchFormat.doublette MatchFormat.doublette
    MatchFormat.doublette 4 2 2 d.2.1 st1
  let st3 := genLoop ft roundIndex MatchFormat.triplette MatchFormat.doublette
    MatchFormat.hybrid 5 3 2 d.2.2 st2
  if st3.roundMatches.isEmpty then .error errNoMatches
  else if st3.roundMatches.length ≠ d.1 + d.2.1 + d.2.2 then .error errWrongMatchCount
  else .ok (st3.roundMatches, st3.trk)

/-- The attempt score computed by generate_round for a candidate round:
_score_matches_with_tracker applied to the generated matches and the
scratch tracker in the state _generate_matches_for_round left it. -/
def attemptScore (mode : TournamentMode) (trkAfterGen : List Match)
    (ms : List Match) : ℚ :=
  scoreMatches mode trkAfterGen ms

/-- A concrete team chooser for a 4-player doublette roster, standing in
for one run of the randomized _form_team; it only ever returns teams of
the requested size, as _form_team does. -/
def ftSized : List Nat → Nat → MatchFormat → Option (List Nat) :=
  fun avail size _f =>
    if size = 2 ∧ avail = [1, 2, 3, 4] then some [1, 2]
    else if size = 2 ∧ avail = [3, 4] then some [3, 4]
    else none

/-- The single doublette match that chooser produces: players 1 and 2
against 3 and 4 on terrain A, with no relation to any prior round. -/
def mFreshRound : Match := Match.mk 0 "A" MatchFormat.doublette [1, 2] [3, 4] none none

/-! ### Quality report and the live-tracker effect of generate_round -/

/-- ScheduleQualityReport of models.py: the four violation counts and the
aggregate score. -/
structure ScheduleQualityReport where
  repeated_partners : Nat
  repeated_opponents : Nat
  repeated_terrains : Nat
  fallback_format_count : Nat
  total_score : ℚ
deriving DecidableEq, Repr

/-- TournamentScheduler._generate_quality_report, computed against a given
tracker state: pair and terrain repeats are counted through the tracker's
partners, opponents and terrains relations, a match counts as fallback
when it is hybrid or in the mode's opposite pure format, and the total
score is _score_matches against the same tracker. -/
def generateQualityReport (mode : TournamentMode) (trk : List Match)
    (ms : List Match) : ScheduleQualityReport :=
  ScheduleQualityReport.mk
    ((ms.map (fun m =>
      (pairsOf m.team_a_player_ids ++ pairsOf m.team_b_player_ids).countP
        (fun pq => isPartnerOf trk pq.1 pq.2))).sum)
    ((ms.map (fun m =>
      (m.team_a_player_ids.flatMap (fun p => m.team_b_player_ids.map (fun q => (p, q)))).countP
        (fun pq => isOpponentOf trk pq.1 pq.2))).sum)
    ((ms.map (fun m =>
      m.all_player_ids.countP (fun pid => playedTerrain trk pid m.terrain_label))).sum)
    (ms.countP (fun m =>
      decide (m.format = MatchFormat.hybrid) || isFallbackFormat mode m.format))
    (scoreMatches mode trk ms)

/-- The live-tracker state generate_round establishes before its attempt
loop: reset to empty exactly when round_index is 0, then every match of
every supplied previous round appended. -/
def liveTrackerForRound (pre : List Match) (roundIndex : Nat)
    (prevRounds : List (List Match)) : List Match :=
  (if roundIndex = 0 then [] else pre) ++ prevRounds.flatten

/-- The observable effect of a successful generate_round call on the
quality report and the live tracker, given the winning matches: the report
is computed against the live tracker seeded from the previous rounds only,
and the function returns with that tracker unchanged — generate_round
contains no add_match call for the winning matches (lines 487-494 of
scheduler.py build the report and the Round and return). -/
def generateRoundEffect (mode : TournamentMode) (pre : List Match)
    (roundIndex : Nat) (prevRounds : List (List Match)) (best : List Match) :
    ScheduleQualityReport × List Match :=
  let trk := liveTrackerForRound pre roundIndex prevRounds
  (generateQualityReport mode trk best, trk)

/-- A concrete roster of four fully cross-eligible players. -/
def players4 : List Player :=
  [Player.mk (some 1) [PlayerRole.tireur, PlayerRole.pointeur, PlayerRole.milieu],
   Player.mk (some 2) [PlayerRole.tireur, PlayerRole.pointeur, PlayerRole.milieu],
   Player.mk (some 3) [PlayerRole.tireur, PlayerRole.pointeur, PlayerRole.milieu],
   Player.mk (some 4) [PlayerRole.tireur, PlayerRole.pointeur, PlayerRole.milieu]]

/-- A concrete roster of four players none of whom can play tireur, so no
role-valid team exists at any constraint level. -/
def playersNoTireur : List Player :=
  [Player.mk (some 1) [PlayerRole.pointeur],
   Player.mk (some 2) [PlayerRole.pointeur],
   Player.mk (some 3) [PlayerRole.pointeur],
   Player.mk (some 4) [PlayerRole.pointeur]]

/-- A prior match in which players 1 and 2 are partners (against 5 and 6,
on another terrain), used in concrete scoring scenarios. -/
def mPartnerOnce : Match := Match.mk 0 "B" MatchFormat.doublette [1, 2] [5, 6] none none

/-- A second prior match in which players 1 and 2 are partners (against 7
and 8, on a third terrain). -/
def mPartnerTwice : Match := Match.mk 0 "C" MatchFormat.doublette [1, 2] [7, 8] none none

/-! ## Theorems

Helper lemmas first, then one theorem per claim (with counterexamples and
witnesses where required). -/

/-- Inversion of a successful mkMatch: the constructed match carries the
given fields and every validation condition held. -/
theorem mkMatch_ok_inv (ri : Int) (ter : String) (f : MatchFormat) (a b : List Nat)
    (sa sb : Option Int) (m : Match) (h : mkMatch ri ter f a b sa sb = Except.ok m) :
    m = Match.mk ri ter f a b sa sb ∧
    a.Nodup ∧ b.Nodup ∧
    scoreOutOfRange sa = false ∧ scoreOutOfRange sb = false ∧
    ¬ (f = MatchFormat.triplette ∧ ¬ (a.length = 3 ∧ b.length = 3)) ∧
    ¬ (f = MatchFormat.doublette ∧ ¬ (a.length = 2 ∧ b.length = 2)) ∧
    ¬ (f = MatchFormat.hybrid ∧
      ¬ ((a.length = 3 ∧ b.length = 2) ∨ (a.length = 2 ∧ b.length = 3))) ∧
    (a ++ b).Nodup := by
  unfold mkMatch at h
  by_cases h1 : ri < 0
  · rw [if_pos h1] at h; exact absurd h (by simp)
  rw [if_neg h1] at h
  by_cases h2 : ter.length < 1 ∨ 10 < ter.length
  · rw [if_pos h2] at h; exact absurd h (by simp)
  rw [if_neg h2] at h
  by_cases h3 : a.length < 2 ∨ 3 < a.length
  · rw [if_pos h3] at h; exact absurd h (by simp)
  rw [if_neg h3] at h
  by_cases h4 : ¬ a.Nodup
  · rw [if_pos h4] at h; exact absurd h (by simp)
  rw [if_neg h4] at h
  by_cases h5 : b.length < 2 ∨ 3 < b.length
  · rw [if_pos h5] at h; exact absurd h (by simp)
  rw [if_neg h5] at h
  by_cases h6 : ¬ b.Nodup
  · rw [if_pos h6] at h; exact absurd h (by simp)
  rw [if_neg h6] at h
  by_cases h7 : scoreOutOfRange sa = true
  · rw [if_pos h7] at h; exact absurd h (by simp)
  rw [if_neg h7] at h
  by_cases h8 : scoreOutOfRange sb = true
  · rw [if_pos h8] at h; exact absurd h (by simp)
  rw [if_neg h8] at h
  by_cases h9 : f = MatchFormat.triplette ∧ ¬ (a.length = 3 ∧ b.length = 3)
  · rw [if_pos h9] at h; exact absurd h (by simp)
  rw [if_neg h9] at h
  by_cases h10 : f = MatchFormat.doublette ∧ ¬ (a.length = 2 ∧ b.length = 2)
  · rw [if_pos h10] at h; exact absurd h (by simp)
  rw [if_neg h10] at h
  by_cases h11 : f = MatchFormat.hybrid ∧
      ¬ ((a.length = 3 ∧ b.length = 2) ∨ (a.length = 2 ∧ b.length = 3))
  · rw [if_pos h11] at h; exact absurd h (by simp)
  rw [if_neg h11] at h
  by_cases h12 : ¬ (a ++ b).Nodup
  · rw [if_pos h12] at h; exact absurd h (by simp)
  rw [if_neg h12] at h
  injection h with h13
  exact ⟨h13.symm, not_not.mp h4, not_not.mp h6,
    (Bool.not_eq_true _) ▸ h7, (Bool.not_eq_true _) ▸ h8,
    h9, h10, h11, not_not.mp h12⟩

/-- Claim C8: a Match whose team sizes do not match its declared format,
whose teams share a player id, or which has a duplicate id within one
team, is rejected at construction time; hence every Match produced by the
validating constructor has matching team sizes, duplicate-free teams, and
disjoint teams. -/
theorem claim_C8 : ∀ (ri : Int) (ter : String) (f : MatchFormat) (a b : List Nat)
    (sa sb : Option Int) (m : Match), mkMatch ri ter f a b sa sb = Except.ok m →
    m.format = f ∧ m.team_a_player_ids = a ∧ m.team_b_player_ids = b ∧
    formatSizesOk f a b ∧ a.Nodup ∧ b.Nodup ∧ ∀ x ∈ a, x ∉ b := by
  intro ri ter f a b sa sb m h
  obtain ⟨hm, hna, hnb, _, _, h9, h10, h11, hnd⟩ := mkMatch_ok_inv ri ter f a b sa sb m h
  subst hm
  refine ⟨rfl, rfl, rfl, ?_, hna, hnb, (List.nodup_append.mp hnd).2.2⟩
  cases f <;> simp [formatSizesOk] <;> tauto

/-- Witness for claim C8 at a concrete valid triplette construction. -/
theorem claim_C8_witness :
    (Match.mk 0 "A" MatchFormat.triplette [1, 2, 3] [4, 5, 6] none none).format
        = MatchFormat.triplette ∧
      formatSizesOk MatchFormat.triplette [1, 2, 3] [4, 5, 6] ∧
      ∀ x ∈ [1, 2, 3], x ∉ [4, 5, 6] := by
  have h := claim_C8 0 "A" MatchFormat.triplette [1, 2, 3] [4, 5, 6] none none
    (Match.mk 0 "A" MatchFormat.triplette [1, 2, 3] [4, 5, 6] none none) rfl
  exact ⟨h.1, h.2.2.2.1, h.2.2.2.2.2.2⟩

/-- Counterexample to claim C9: a Match with score_a set and score_b
absent passes validation, so it is not impossible to construct a Match
with exactly one score set. -/
theorem claim_C9_counterexample :
    mkMatch 0 "A" MatchFormat.doublette [1, 2] [3, 4] (some 5) none =
      Except.ok (Match.mk 0 "A" MatchFormat.doublette [1, 2] [3, 4] (some 5) none) ∧
      (Match.mk 0 "A" MatchFormat.doublette [1, 2] [3, 4] (some 5) none).score_a = some 5 ∧
      (Match.mk 0 "A" MatchFormat.doublette [1, 2] [3, 4] (some 5) none).score_b = none := by
  exact ⟨rfl, rfl, rfl⟩

/-- Claim C9 as amended: Match validation does not tie the two scores to
each other — a Match with exactly one score set is constructible — and
is_complete holds exactly when both scores are set. -/
theorem claim_C9 :
    (∀ m : Match, m.is_complete = true ↔ (m.score_a.isSome = true ∧ m.score_b.isSome = true)) ∧
    mkMatch 0 "B" MatchFormat.doublette [1, 2] [3, 4] none (some 7) =
      Except.ok (Match.mk 0 "B" MatchFormat.doublette [1, 2] [3, 4] none (some 7)) ∧
    (Match.mk 0 "B" MatchFormat.doublette [1, 2] [3, 4] none (some 7)).is_complete = false := by
  refine ⟨?_, rfl, rfl⟩
  intro m
  simp [Match.is_complete]

/-- Claim C10: every present score of a validated Match lies between 0 and
13, and construction with a score below 0 or above 13 fails. -/
theorem claim_C10 :
    (∀ (ri : Int) (ter : String) (f : MatchFormat) (a b : List Nat)
      (sa sb : Option Int) (m : Match), mkMatch ri ter f a b sa sb = Except.ok m →
      (∀ s, m.score_a = some s → 0 ≤ s ∧ s ≤ 13) ∧
      (∀ s, m.score_b = some s → 0 ≤ s ∧ s ≤ 13)) ∧
    (∀ (ri : Int) (ter : String) (f : MatchFormat) (a b : List Nat)
      (s : Int) (sb : Option Int), (s < 0 ∨ 13 < s) →
      ∀ m, mkMatch ri ter f a b (some s) sb ≠ Except.ok m) ∧
    (∀ (ri : Int) (ter : String) (f : MatchFormat) (a b : List Nat)
      (sa : Option Int) (s : Int), (s < 0 ∨ 13 < s) →
      ∀ m, mkMatch ri ter f a b sa (some s) ≠ Except.ok m) := by
  refine ⟨?_, ?_, ?_⟩
  · intro ri ter f a b sa sb m h
    obtain ⟨hm, _, _, hsa, hsb, _⟩ := mkMatch_ok_inv ri ter f a b sa sb m h
    subst hm
    constructor <;> intro s hs <;> simp only [] at hs <;> subst hs
    · simp [scoreOutOfRange] at hsa
      omega
    · simp [scoreOutOfRange] at hsb
      omega
  · intro ri ter f a b s sb hs m h
    obtain ⟨_, _, _, hsa, _⟩ := mkMatch_ok_inv ri ter f a b (some s) sb m h
    simp [scoreOutOfRange] at hsa
    omega
  · intro ri ter f a b sa s hs m h
    obtain ⟨_, _, _, _, hsb, _⟩ := mkMatch_ok_inv ri ter f a b sa (some s) m h
    simp [scoreOutOfRange] at hsb
    omega

/-- Witness for claim C10: bounds extracted from a concrete construction,
and rejection of a concrete score of 14. -/
theorem claim_C10_witness :
    ((0 : Int) ≤ 5 ∧ (5 : Int) ≤ 13) ∧
      mkMatch 0 "A" MatchFormat.doublette [1, 2] [3, 4] (some 14) none ≠
        Except.ok (Match.mk 0 "A" MatchFormat.doublette [1, 2] [3, 4] (some 14) none) := by
  constructor
  · exact (claim_C10.1 0 "A" MatchFormat.doublette [1, 2] [3, 4] (some 5) none
      (Match.mk 0 "A" MatchFormat.doublette [1, 2] [3, 4] (some 5) none) rfl).1 5 rfl
  · exact claim_C10.2.1 0 "A" MatchFormat.doublette [1, 2] [3, 4] 14 none
      (by omega) (Match.mk 0 "A" MatchFormat.doublette [1, 2] [3, 4] (some 14) none)

/-- Counterexample to claim C4: scoring a hybrid match against an empty
history in triplette mode yields 0, not the claimed fallback penalty of
1.5 per player (7.5 for five players), so score_match does not add a
fallback penalty for hybrid matches. -/
theorem claim_C4_counterexample :
    scoreMatch TournamentMode.triplette [] [1, 2, 3] [4, 5] "A" MatchFormat.hybrid = 0 ∧
    fallbackFormatPenaltyPerPlayer * ((5 : Nat) : ℚ) ≠ 0 := by
  constructor
  · simp +decide [scoreMatch, partnerCount, opponentCount, playedTerrain, isFallbackFormat,
      matchPartnerPairs, matchOpponentPairs, pairsOf, pairKey,
      Match.all_player_ids, List.count_cons, List.count_nil, List.flatMap]
  · norm_num [fallbackFormatPenaltyPerPlayer]

/-- Claim C4 as amended: score_match adds the per-player fallback penalty
exactly when the scored format is the pure format opposite to the
tournament mode; a hybrid match adds no fallback penalty and scores
identically to the preferred format. -/
theorem claim_C4 : ∀ (mode : TournamentMode) (ms : List Match) (ta tb : List Nat)
    (ter : String),
    scoreMatch mode ms ta tb ter MatchFormat.hybrid =
      scoreMatch mode ms ta tb ter (preferredFormat mode) ∧
    scoreMatch mode ms ta tb ter (oppositeFormat mode) =
      scoreMatch mode ms ta tb ter MatchFormat.hybrid +
        fallbackFormatPenaltyPerPlayer * (((ta ++ tb).length : ℚ)) ∧
    (∀ f, scoreMatch mode ms ta tb ter f =
      scoreMatch mode ms ta tb ter MatchFormat.hybrid +
        (if isFallbackFormat mode f then
          fallbackFormatPenaltyPerPlayer * (((ta ++ tb).length : ℚ)) else 0)) := by
  intro mode ms ta tb ter
  refine ⟨?_, ?_, ?_⟩
  · cases mode <;> simp [scoreMatch, isFallbackFormat, preferredFormat]
  · cases mode <;> simp [scoreMatch, isFallbackFormat, oppositeFormat]
  · intro f
    cases mode <;> cases f <;> simp [scoreMatch, isFallbackFormat]

/-- Claim C6: score_match decomposes into per-pair contributions where a
pair recorded k times contributes the penalty weight times k squared; one
prior partner occurrence scores strictly higher than none, and two prior
occurrences score exactly four times one. -/
theorem claim_C6 :
    (∀ (mode : TournamentMode) (ms : List Match) (ta tb : List Nat) (ter : String)
      (f : MatchFormat),
      scoreMatch mode ms ta tb ter f =
        ((pairsOf ta ++ pairsOf tb).map
          (fun pq => partnerContrib (partnerCount ms pq.1 pq.2))).sum +
        ((ta.flatMap (fun p => tb.map (fun q => (p, q)))).map
          (fun pq => opponentContrib (opponentCount ms pq.1 pq.2))).sum +
        ((ta ++ tb).map
          (fun pid => if playedTerrain ms pid ter then repeatedTerrainsPenalty else 0)).sum +
        (if isFallbackFormat mode f then
          fallbackFormatPenaltyPerPlayer * (((ta ++ tb).length : ℚ)) else 0)) ∧
    (∀ k : Nat, partnerContrib (k + 1) = repeatedPartnersPenalty * (((k + 1 : Nat)) : ℚ) ^ 2 ∧
      opponentContrib (k + 1) = repeatedOpponentsPenalty * (((k + 1 : Nat)) : ℚ) ^ 2) ∧
    scoreMatch TournamentMode.doublette [] [1, 2] [3, 4] "A" MatchFormat.doublette <
      scoreMatch TournamentMode.doublette [mPartnerOnce] [1, 2] [3, 4] "A"
        MatchFormat.doublette ∧
    scoreMatch TournamentMode.doublette [mPartnerOnce] [1, 2] [3, 4] "A"
        MatchFormat.doublette = repeatedPartnersPenalty * 1 ^ 2 ∧
    scoreMatch TournamentMode.doublette [mPartnerOnce, mPartnerTwice] [1, 2] [3, 4] "A"
        MatchFormat.doublette = repeatedPartnersPenalty * 2 ^ 2 ∧
    partnerContrib 2 = 4 * partnerContrib 1 := by
  refine ⟨?_, ?_, ?_, ?_, ?_, ?_⟩
  · intro mode ms ta tb ter f
    simp [scoreMatch, partnerContrib, opponentContrib]
  · intro k
    constructor <;> simp [partnerContrib, opponentContrib]
  · have h0 : scoreMatch TournamentMode.doublette [] [1, 2] [3, 4] "A"
        MatchFormat.doublette = 0 := by
      simp +decide [scoreMatch, partnerCount, opponentCount, playedTerrain, isFallbackFormat,
        matchPartnerPairs, matchOpponentPairs, pairsOf, pairKey,
        Match.all_player_ids, List.count_cons, List.count_nil, List.flatMap]
    have h1 : scoreMatch TournamentMode.doublette [mPartnerOnce] [1, 2] [3, 4] "A"
        MatchFormat.doublette = 10 := by
      simp +decide [scoreMatch, partnerCount, opponentCount, playedTerrain, isFallbackFormat,
        matchPartnerPairs, matchOpponentPairs, pairsOf, pairKey, mPartnerOnce,
        repeatedPartnersPenalty,
        Match.all_player_ids, List.count_cons, List.count_nil, List.flatMap]
    rw [h0, h1]; norm_num
  · simp +decide [scoreMatch, partnerCount, opponentCount, playedTerrain, isFallbackFormat,
      matchPartnerPairs, matchOpponentPairs, pairsOf, pairKey, mPartnerOnce,
      repeatedPartnersPenalty,
      Match.all_player_ids, List.count_cons, List.count_nil, List.flatMap]
  · simp +decide [scoreMatch, partnerCount, opponentCount, playedTerrain, isFallbackFormat,
      matchPartnerPairs, matchOpponentPairs, pairsOf, pairKey, mPartnerOnce, mPartnerTwice,
      repeatedPartnersPenalty,
      Match.all_player_ids, List.count_cons, List.count_nil, List.flatMap]
    norm_num
  · simp [partnerContrib, repeatedPartnersPenalty]
    norm_num

/-- A permutation of a list leaves List.any unchanged. -/
theorem perm_any_congr {α : Type} {l l' : List α} (h : l.Perm l') (f : α → Bool) :
    l.any f = l'.any f := by
  rw [Bool.eq_iff_iff]
  simp only [List.any_eq_true]
  exact ⟨fun ⟨x, hx, hf⟩ => ⟨x, h.mem_iff.mp hx, hf⟩,
    fun ⟨x, hx, hf⟩ => ⟨x, h.mem_iff.mpr hx, hf⟩⟩

/-- Claim C7: every relation the tracker derives — the partner and
opponent counts, the partner, opponent and terrain membership relations,
and the fallback-format counts — is invariant under permuting the list of
recorded matches, i.e. a function of the match collection only. -/
theorem claim_C7 : ∀ (mode : TournamentMode) (l l' : List Match), l.Perm l' →
    (∀ p q, partnerCount l p q = partnerCount l' p q) ∧
    (∀ p q, opponentCount l p q = opponentCount l' p q) ∧
    (∀ p q, isPartnerOf l p q = isPartnerOf l' p q) ∧
    (∀ p q, isOpponentOf l p q = isOpponentOf l' p q) ∧
    (∀ pid ter, playedTerrain l pid ter = playedTerrain l' pid ter) ∧
    (∀ pid, fallbackCount mode l pid = fallbackCount mode l' pid) := by
  intro mode l l' h
  refine ⟨?_, ?_, ?_, ?_, ?_, ?_⟩
  · intro p q; exact (h.map _).sum_eq
  · intro p q; exact (h.map _).sum_eq
  · intro p q; exact perm_any_congr h _
  · intro p q; exact perm_any_congr h _
  · intro pid ter; exact perm_any_congr h _
  · intro pid; exact (h.map _).sum_eq

/-- Witness for claim C7 at a concrete two-element permutation. -/
theorem claim_C7_witness :
    partnerCount [mPartnerOnce, mPartnerTwice] 1 2 =
      partnerCount [mPartnerTwice, mPartnerOnce] 1 2 ∧
    playedTerrain [mPartnerOnce, mPartnerTwice] 1 "B" =
      playedTerrain [mPartnerTwice, mPartnerOnce] 1 "B" := by
  have h := claim_C7 TournamentMode.triplette [mPartnerOnce, mPartnerTwice]
    [mPartnerTwice, mPartnerOnce] (List.Perm.swap mPartnerTwice mPartnerOnce [])
  exact ⟨h.1 1 2, h.2.2.2.2.1 1 "B"⟩

/-- The tie-break preference is transitive. -/
theorem distPrefer_trans (mode : TournamentMode) (x y z : Nat × Nat × Nat)
    (h1 : distPrefer mode x y = true) (h2 : distPrefer mode y z = true) :
    distPrefer mode x z = true := by
  cases mode <;> simp [distPrefer] at h1 h2 ⊢ <;> omega

/-- No triple is strictly preferred over itself. -/
theorem distPrefer_irrefl (mode : TournamentMode) (t : Nat × Nat × Nat) :
    distPrefer mode t t = false := by
  cases mode <;> simp [distPrefer]

/-- One distStep preserves the loop invariant: the best triple seats at
most n players and the stored bench is its exact bench count. -/
theorem distStep_inv (mode : TournamentMode) (n : Nat) (st : (Nat × Nat × Nat) × Int)
    (t : Nat × Nat × Nat) (h1 : seatedPlayers st.1 ≤ n)
    (h2 : st.2 = (n : Int) - (seatedPlayers st.1 : Int)) :
    seatedPlayers (distStep mode n st t).1 ≤ n ∧
    (distStep mode n st t).2 = (n : Int) - (seatedPlayers (distStep mode n st t).1 : Int) := by
  simp only [distStep]
  split_ifs with hb hlt heq hpref <;> (try dsimp only) <;> constructor <;> omega

/-- One distStep keeps any previously established dominance over a fixed
candidate: the stored bench stays at most the candidate's bench, and on an
exact tie the candidate is still not preferred over the stored best. -/
theorem distStep_mono (mode : TournamentMode) (n : Nat) (st : (Nat × Nat × Nat) × Int)
    (t t0 : Nat × Nat × Nat)
    (hp1 : st.2 ≤ (n : Int) - (seatedPlayers t0 : Int))
    (hp2 : (n : Int) - (seatedPlayers t0 : Int) = st.2 → distPrefer mode t0 st.1 = false) :
    (distStep mode n st t).2 ≤ (n : Int) - (seatedPlayers t0 : Int) ∧
    ((n : Int) - (seatedPlayers t0 : Int) = (distStep mode n st t).2 →
      distPrefer mode t0 (distStep mode n st t).1 = false) := by
  simp only [distStep]
  split_ifs with hb hlt heq hpref <;> try dsimp only
  · exact ⟨hp1, hp2⟩
  · exact ⟨by omega, fun htie => by omega⟩
  · refine ⟨by omega, fun htie => ?_⟩
    by_cases hc : distPrefer mode t0 t = true
    · have := distPrefer_trans mode t0 t st.1 hc hpref
      rw [hp2 (by omega)] at this
      exact absurd this (by simp)
    · exact (Bool.not_eq_true _) ▸ hc
  · exact ⟨hp1, hp2⟩
  · exact ⟨hp1, hp2⟩

/-- After processing a candidate that fits, the state dominates that
candidate. -/
theorem distStep_self (mode : TournamentMode) (n : Nat) (st : (Nat × Nat × Nat) × Int)
    (t : Nat × Nat × Nat) (hts : seatedPlayers t ≤ n) :
    (distStep mode n st t).2 ≤ (n : Int) - (seatedPlayers t : Int) ∧
    ((n : Int) - (seatedPlayers t : Int) = (distStep mode n st t).2 →
      distPrefer mode t (distStep mode n st t).1 = false) := by
  simp only [distStep]
  split_ifs with hb hlt heq hpref <;> try dsimp only
  · omega
  · exact ⟨by omega, fun _ => distPrefer_irrefl mode t⟩
  · exact ⟨by omega, fun _ => distPrefer_irrefl mode t⟩
  · exact ⟨by omega, fun _ => (Bool.not_eq_true _) ▸ hpref⟩
  · exact ⟨by omega, fun htie => by omega⟩

/-- The candidate fold preserves the loop invariant. -/
theorem distFoldl_inv (mode : TournamentMode) (n : Nat) :
    ∀ (l : List (Nat × Nat × Nat)) (st : (Nat × Nat × Nat) × Int),
    seatedPlayers st.1 ≤ n → st.2 = (n : Int) - (seatedPlayers st.1 : Int) →
    seatedPlayers (l.foldl (distStep mode n) st).1 ≤ n ∧
    (l.foldl (distStep mode n) st).2 =
      (n : Int) - (seatedPlayers (l.foldl (distStep mode n) st).1 : Int) := by
  intro l
  induction l with
  | nil => intro st h1 h2; exact ⟨h1, h2⟩
  | cons t rest ih =>
    intro st h1 h2
    have hs := distStep_inv mode n st t h1 h2
    exact ih (distStep mode n st t) hs.1 hs.2

/-- The candidate fold keeps dominance over a fixed candidate. -/
theorem distFoldl_mono (mode : TournamentMode) (n : Nat) (t0 : Nat × Nat × Nat) :
    ∀ (l : List (Nat × Nat × Nat)) (st : (Nat × Nat × Nat) × Int),
    st.2 ≤ (n : Int) - (seatedPlayers t0 : Int) →
    ((n : Int) - (seatedPlayers t0 : Int) = st.2 → distPrefer mode t0 st.1 = false) →
    (l.foldl (distStep mode n) st).2 ≤ (n : Int) - (seatedPlayers t0 : Int) ∧
    ((n : Int) - (seatedPlayers t0 : Int) = (l.foldl (distStep mode n) st).2 →
      distPrefer mode t0 (l.foldl (distStep mode n) st).1 = false) := by
  intro l
  induction l with
  | nil => intro st h1 h2; exact ⟨h1, h2⟩
  | cons t rest ih =>
    intro st h1 h2
    have hs := distStep_mono mode n st t t0 h1 h2
    exact ih (distStep mode n st t) hs.1 hs.2

/-- After the fold, the final state dominates every fitting candidate of
the processed list. -/
theorem distFoldl_all (mode : TournamentMode) (n : Nat) :
    ∀ (l : List (Nat × Nat × Nat)) (st : (Nat × Nat × Nat) × Int),
    seatedPlayers st.1 ≤ n → st.2 = (n : Int) - (seatedPlayers st.1 : Int) →
    ∀ t ∈ l, seatedPlayers t ≤ n →
    (l.foldl (distStep mode n) st).2 ≤ (n : Int) - (seatedPlayers t : Int) ∧
    ((n : Int) - (seatedPlayers t : Int) = (l.foldl (distStep mode n) st).2 →
      distPrefer mode t (l.foldl (distStep mode n) st).1 = false) := by
  intro l
  induction l with
  | nil => intro st _ _ t ht; exact absurd ht (List.not_mem_nil t)
  | cons x rest ih =>
    intro st h1 h2 t ht hts
    have hinv := distStep_inv mode n st x h1 h2
    rcases List.mem_cons.mp ht with hx | hrest
    · subst hx
      have hself := distStep_self mode n st t hts
      exact distFoldl_mono mode n t rest (distStep mode n st t) hself.1 hself.2
    · exact ih (distStep mode n st x) hinv.1 hinv.2 t hrest hts

/-- Every triple that seats at most n players lies in the enumeration. -/
theorem mem_distTriples (n a b c : Nat) (h : 6 * a + 4 * b + 5 * c ≤ n) :
    (a, b, c) ∈ distTriples n := by
  have ha : a < n / 6 + 1 :=
    Nat.lt_succ_of_le ((Nat.le_div_iff_mul_le (by norm_num)).mpr (by omega))
  have hb : b < n / 4 + 1 :=
    Nat.lt_succ_of_le ((Nat.le_div_iff_mul_le (by norm_num)).mpr (by omega))
  have hc : c < n / 5 + 1 :=
    Nat.lt_succ_of_le ((Nat.le_div_iff_mul_le (by norm_num)).mpr (by omega))
  simp only [distTriples, List.mem_flatMap, List.mem_map, List.mem_range]
  exact ⟨a, ha, b, hb, c, hc, rfl⟩

/-- Claim C1: for every player count and mode, the distribution solver
returns a triple seating at most n players that maximizes the seated total
over all triples, ties are never broken against the preference order
(more preferred-format matches, then fewer hybrids), the sample values
n = 5, 6, 7, 11 come out as claimed in both modes, and every n below 4
yields the zero triple. Non-negativity holds by the Nat components. -/
theorem claim_C1 : ∀ (n : Nat) (mode : TournamentMode),
    seatedPlayers (findOptimalMatchDistribution n mode) ≤ n ∧
    (∀ a b c : Nat, 6 * a + 4 * b + 5 * c ≤ n →
      6 * a + 4 * b + 5 * c ≤ seatedPlayers (findOptimalMatchDistribution n mode)) ∧
    (∀ t : Nat × Nat × Nat, seatedPlayers t ≤ n →
      seatedPlayers t = seatedPlayers (findOptimalMatchDistribution n mode) →
      distPrefer mode t (findOptimalMatchDistribution n mode) = false) ∧
    findOptimalMatchDistribution 5 mode = (0, 0, 1) ∧
    findOptimalMatchDistribution 6 mode = (1, 0, 0) ∧
    findOptimalMatchDistribution 7 mode = (1, 0, 0) ∧
    findOptimalMatchDistribution 11 mode = (1, 0, 1) ∧
    (n < 4 → findOptimalMatchDistribution n mode = (0, 0, 0)) := by
  intro n mode
  by_cases hn : n < 4
  · refine ⟨?_, ?_, ?_, ?_, ?_, ?_, ?_, fun _ => by simp [findOptimalMatchDistribution, hn]⟩
    · simp [findOptimalMatchDistribution, hn, seatedPlayers]
    · intro a b c hle
      have habc : a = 0 ∧ b = 0 ∧ c = 0 := by omega
      simp only [findOptimalMatchDistribution, if_pos hn, seatedPlayers]
      omega
    · intro t hle heq
      have ht : t = (0, 0, 0) := by
        rcases t with ⟨x, y, z⟩
        simp only [seatedPlayers] at hle
        have : x = 0 ∧ y = 0 ∧ z = 0 := by omega
        simp [this.1, this.2.1, this.2.2]
      subst ht
      rw [findOptimalMatchDistribution, if_pos hn]
      exact distPrefer_irrefl mode (0, 0, 0)
    all_goals cases mode <;> decide
  · have hinit1 : seatedPlayers ((0, 0, 0) : Nat × Nat × Nat) ≤ n := by
      simp [seatedPlayers]
    have hinit2 : ((n : Int)) = (n : Int) - (seatedPlayers ((0, 0, 0) : Nat × Nat × Nat) : Int) := by
      simp [seatedPlayers]
    have hfo : findOptimalMatchDistribution n mode =
        ((distTriples n).foldl (distStep mode n) ((0, 0, 0), (n : Int))).1 := by
      rw [findOptimalMatchDistribution, if_neg hn]
    have hinv := distFoldl_inv mode n (distTriples n) ((0, 0, 0), (n : Int)) hinit1 hinit2
    refine ⟨hfo ▸ hinv.1, ?_, ?_, ?_, ?_, ?_, ?_, fun hcon => absurd hcon hn⟩
    · intro a b c hle
      have hmem := mem_distTriples n a b c hle
      have hall := distFoldl_all mode n (distTriples n) ((0, 0, 0), (n : Int)) hinit1 hinit2
        (a, b, c) hmem (by simpa [seatedPlayers] using hle)
      have hseq := hinv.2
      rw [hfo]
      have : seatedPlayers ((a, b, c) : Nat × Nat × Nat) = 6 * a + 4 * b + 5 * c := rfl
      omega
    · intro t hle heq
      have hmem : t ∈ distTriples n := by
        rcases t with ⟨x, y, z⟩
        exact mem_distTriples n x y z (by simpa [seatedPlayers] using hle)
      have hall := distFoldl_all mode n (distTriples n) ((0, 0, 0), (n : Int)) hinit1 hinit2
        t hmem hle
      rw [hfo]
      refine hall.2 ?_
      rw [hfo] at heq
      omega
    all_goals cases mode <;> decide

/-- Witness for claim C1: maximality applied at n = 7 with the candidate
(0, 1, 0), the tie-break applied at the optimum itself, and the below-4
clause at n = 3. -/
theorem claim_C1_witness :
    6 * 0 + 4 * 1 + 5 * 0 ≤ seatedPlayers
      (findOptimalMatchDistribution 7 TournamentMode.triplette) ∧
    distPrefer TournamentMode.triplette (1, 0, 0)
      (findOptimalMatchDistribution 7 TournamentMode.triplette) = false ∧
    findOptimalMatchDistribution 3 TournamentMode.doublette = (0, 0, 0) := by
  refine ⟨(claim_C1 7 TournamentMode.triplette).2.1 0 1 0 (by decide),
    (claim_C1 7 TournamentMode.triplette).2.2.1 (1, 0, 0) (by decide) (by decide),
    (claim_C1 3 TournamentMode.doublette).2.2.2.2.2.2.2 (by decide)⟩

/-- Whatever the team chooser does, one generation loop only ever appends
matches, and it appends the same matches to the match list and to the
tracker. -/
theorem genLoop_frame (ft : List Nat → Nat → MatchFormat → Option (List Nat))
    (ri : Nat) (fa fb mf : MatchFormat) (mp sa sb : Nat) :
    ∀ (n : Nat) (st : GenState), ∃ new : List Match,
    (genLoop ft ri fa fb mf mp sa sb n st).roundMatches = st.roundMatches ++ new ∧
    (genLoop ft ri fa fb mf mp sa sb n st).trk = st.trk ++ new := by
  intro n
  induction n with
  | zero => intro st; exact ⟨[], by simp [genLoop]⟩
  | succ n ih =>
    intro st
    rw [genLoop]
    by_cases hlen : st.available.length < mp
    · rw [if_pos hlen]; exact ⟨[], by simp⟩
    rw [if_neg hlen]
    cases hft1 : ft st.available sa fa with
    | none => exact ⟨[], by simp⟩
    | some ta =>
      cases hft2 : ft (removeAll st.available ta) sb fb with
      | none => exact ⟨[], by simp [hft2]⟩
      | some tb =>
        simp only [hft2]
        obtain ⟨new, hm, ht⟩ := ih (GenState.mk (removeAll (removeAll st.available ta) tb)
          (st.roundMatches ++
            [Match.mk (ri : Int) (getTerrainLabel st.terrainIdx) mf ta tb none none])
          (st.trk ++ [Match.mk (ri : Int) (getTerrainLabel st.terrainIdx) mf ta tb none none])
          (st.terrainIdx + 1))
        refine ⟨Match.mk (ri : Int) (getTerrainLabel st.terrainIdx) mf ta tb none none :: new,
          ?_, ?_⟩
        · rw [hm]; simp
        · rw [ht]; simp

/-- When the team chooser honours the requested size, every match a
generation loop appends has a first team of the first requested size, here
bounded below by 2 for the loops actually run. -/
theorem genLoop_sizes (ft : List Nat → Nat → MatchFormat → Option (List Nat))
    (ri : Nat) (fa fb mf : MatchFormat) (mp sa sb : Nat)
    (hft : ∀ av s f t, ft av s f = some t → t.length = s) :
    ∀ (n : Nat) (st : GenState),
    (∀ m ∈ st.roundMatches, 2 ≤ m.team_a_player_ids.length) → 2 ≤ sa →
    ∀ m ∈ (genLoop ft ri fa fb mf mp sa sb n st).roundMatches,
      2 ≤ m.team_a_player_ids.length := by
  intro n
  induction n with
  | zero => intro st hst hsa m hm; exact hst m hm
  | succ n ih =>
    intro st hst hsa m hm
    rw [genLoop] at hm
    by_cases hlen : st.available.length < mp
    · rw [if_pos hlen] at hm; exact hst m hm
    rw [if_neg hlen] at hm
    cases hft1 : ft st.available sa fa with
    | none => rw [hft1] at hm; exact hst m hm
    | some ta =>
      rw [hft1] at hm
      cases hft2 : ft (removeAll st.available ta) sb fb with
      | none =>
        simp only [hft2] at hm
        exact hst m hm
      | some tb =>
        simp only [hft2] at hm
        refine ih _ ?_ hsa m hm
        intro m2 hm2
        rcases List.mem_append.mp hm2 with h | h
        · exact hst m2 h
        · rcases List.mem_singleton.mp h with rfl
          have := hft st.available sa fa ta hft1
          simp only []
          omega

/-- On success, _generate_matches_for_round leaves the scratch tracker
equal to its initial contents followed by exactly the generated matches,
the round is non-empty, and with a size-honouring chooser every generated
match has a first team of at least two players. -/
theorem genMatchesForRound_spec (ft : List Nat → Nat → MatchFormat → Option (List Nat))
    (mode : TournamentMode) (players : List Nat) (ri : Nat) (trk0 : List Match)
    (ms trkOut : List Match)
    (h : genMatchesForRound ft mode players ri trk0 = Except.ok (ms, trkOut)) :
    trkOut = trk0 ++ ms ∧ ms ≠ [] ∧
    ((∀ av s f t, ft av s f = some t → t.length = s) →
      ∀ m ∈ ms, 2 ≤ m.team_a_player_ids.length) := by
  unfold genMatchesForRound at h
  set d := findOptimalMatchDistribution players.length mode with hd
  set st0 : GenState := GenState.mk players [] trk0 0 with hst0
  set st1 := genLoop ft ri MatchFormat.triplette MatchFormat.triplette
    MatchFormat.triplette 6 3 3 d.1 st0 with hst1
  set st2 := genLoop ft ri MatchFormat.doublette MatchFormat.doublette
    MatchFormat.doublette 4 2 2 d.2.1 st1 with hst2
  set st3 := genLoop ft ri MatchFormat.triplette MatchFormat.doublette
    MatchFormat.hybrid 5 3 2 d.2.2 st2 with hst3
  obtain ⟨n1, hm1, ht1⟩ := genLoop_frame ft ri MatchFormat.triplette MatchFormat.triplette
    MatchFormat.triplette 6 3 3 d.1 st0
  obtain ⟨n2, hm2, ht2⟩ := genLoop_frame ft ri MatchFormat.doublette MatchFormat.doublette
    MatchFormat.doublette 4 2 2 d.2.1 st1
  obtain ⟨n3, hm3, ht3⟩ := genLoop_frame ft ri MatchFormat.triplette MatchFormat.doublette
    MatchFormat.hybrid 5 3 2 d.2.2 st2
  rw [← hst1] at hm1 ht1
  rw [← hst2] at hm2 ht2
  rw [← hst3] at hm3 ht3
  by_cases he : st3.roundMatches.isEmpty
  · rw [if_pos he] at h; exact absurd h (by simp)
  rw [if_neg he] at h
  by_cases hc : st3.roundMatches.length ≠ d.1 + d.2.1 + d.2.2
  · rw [if_pos hc] at h; exact absurd h (by simp)
  rw [if_neg hc] at h
  injection h with h2
  injection h2 with hms htrk
  subst hms
  subst htrk
  refine ⟨?_, ?_, ?_⟩
  · rw [ht3, ht2, ht1, hm3, hm2, hm1]
    simp [hst0]
  · intro hnil
    rw [hnil] at he
    exact he rfl
  · intro hft
    have hs0 : ∀ m ∈ st0.roundMatches, 2 ≤ m.team_a_player_ids.length := by
      intro m hm
      simp [hst0] at hm
    have hs1 := genLoop_sizes ft ri MatchFormat.triplette MatchFormat.triplette
      MatchFormat.triplette 6 3 3 hft d.1 st0 hs0 (by omega)
    rw [← hst1] at hs1
    have hs2 := genLoop_sizes ft ri MatchFormat.doublette MatchFormat.doublette
      MatchFormat.doublette 4 2 2 hft d.2.1 st1 hs1 (by omega)
    rw [← hst2] at hs2
    have hs3 := genLoop_sizes ft ri MatchFormat.triplette MatchFormat.doublette
      MatchFormat.hybrid 5 3 2 hft d.2.2 st2 hs2 (by omega)
    rw [← hst3] at hs3
    exact hs3

/-- A match score is a sum of non-negative parts. -/
theorem scoreMatch_nonneg (mode : TournamentMode) (ms : List Match) (ta tb : List Nat)
    (ter : String) (f : MatchFormat) : 0 ≤ scoreMatch mode ms ta tb ter f := by
  simp only [scoreMatch]
  have h1 : (0:ℚ) ≤ ((pairsOf ta ++ pairsOf tb).map (fun pq =>
      let c := partnerCount ms pq.1 pq.2
      if 0 < c then repeatedPartnersPenalty * (c : ℚ) ^ 2 else 0)).sum := by
    apply List.sum_nonneg
    intro x hx
    simp only [List.mem_map] at hx
    obtain ⟨pq, _, hpq⟩ := hx
    subst hpq
    split_ifs
    · simp only [repeatedPartnersPenalty]
      positivity
    · exact le_refl 0
  have h2 : (0:ℚ) ≤ ((ta.flatMap (fun p => tb.map (fun q => (p, q)))).map (fun pq =>
      let c := opponentCount ms pq.1 pq.2
      if 0 < c then repeatedOpponentsPenalty * (c : ℚ) ^ 2 else 0)).sum := by
    apply List.sum_nonneg
    intro x hx
    simp only [List.mem_map] at hx
    obtain ⟨pq, _, hpq⟩ := hx
    subst hpq
    split_ifs
    · simp only [repeatedOpponentsPenalty]
      positivity
    · exact le_refl 0
  have h3 : (0:ℚ) ≤ ((ta ++ tb).map (fun pid =>
      if playedTerrain ms pid ter then repeatedTerrainsPenalty else 0)).sum := by
    apply List.sum_nonneg
    intro x hx
    simp only [List.mem_map] at hx
    obtain ⟨pid, _, hpid⟩ := hx
    subst hpid
    split_ifs
    · norm_num [repeatedTerrainsPenalty]
    · exact le_refl 0
  have h4 : (0:ℚ) ≤ if isFallbackFormat mode f then
      fallbackFormatPenaltyPerPlayer * (((ta ++ tb).length : ℚ)) else 0 := by
    split_ifs
    · simp only [fallbackFormatPenaltyPerPlayer]
      positivity
    · exact le_refl 0
  exact add_nonneg (add_nonneg (add_nonneg h1 h2) h3) h4

/-- A pair contributed by a recorded match has a positive partner count. -/
theorem partnerCount_ge_of_mem (trk : List Match) (m : Match) (hm : m ∈ trk)
    (p q : Nat) (hpq : pairKey p q ∈ matchPartnerPairs m) :
    1 ≤ partnerCount trk p q := by
  unfold partnerCount
  have h1 : 1 ≤ (matchPartnerPairs m).count (pairKey p q) := by
    have := List.count_pos_iff.mpr hpq
    omega
  have h2 : (matchPartnerPairs m).count (pairKey p q) ∈
      trk.map (fun m2 => (matchPartnerPairs m2).count (pairKey p q)) :=
    List.mem_map.mpr ⟨m, hm, rfl⟩
  have h3 := List.single_le_sum (l := trk.map
    (fun m2 => (matchPartnerPairs m2).count (pairKey p q))) (fun x _ => Nat.zero_le x) _ h2
  omega

/-- A match whose first team starts with a pair already recorded as
partners scores at least the partner penalty. -/
theorem scoreMatch_ge_partner (mode : TournamentMode) (ms : List Match)
    (ta tb : List Nat) (ter : String) (f : MatchFormat) (x y : Nat) (rest : List Nat)
    (hta : ta = x :: y :: rest) (hcount : 1 ≤ partnerCount ms x y) :
    repeatedPartnersPenalty ≤ scoreMatch mode ms ta tb ter f := by
  simp only [scoreMatch]
  have hterm : repeatedPartnersPenalty ≤
      (fun pq : Nat × Nat =>
        let c := partnerCount ms pq.1 pq.2
        if 0 < c then repeatedPartnersPenalty * (c : ℚ) ^ 2 else 0) (x, y) := by
    simp only []
    rw [if_pos (by omega)]
    have hc1 : (1 : ℚ) ≤ ((partnerCount ms x y : Nat) : ℚ) := by exact_mod_cast hcount
    simp only [repeatedPartnersPenalty]
    nlinarith
  have hmem : (x, y) ∈ pairsOf ta ++ pairsOf tb := by
    rw [hta]
    apply List.mem_append_left
    simp [pairsOf]
  have hmem2 : (fun pq : Nat × Nat =>
      let c := partnerCount ms pq.1 pq.2
      if 0 < c then repeatedPartnersPenalty * (c : ℚ) ^ 2 else 0) (x, y) ∈
      (pairsOf ta ++ pairsOf tb).map (fun pq =>
        let c := partnerCount ms pq.1 pq.2
        if 0 < c then repeatedPartnersPenalty * (c : ℚ) ^ 2 else 0) :=
    List.mem_map.mpr ⟨(x, y), hmem, rfl⟩
  have hsumnn : ∀ z ∈ (pairsOf ta ++ pairsOf tb).map (fun pq =>
      let c := partnerCount ms pq.1 pq.2
      if 0 < c then repeatedPartnersPenalty * (c : ℚ) ^ 2 else 0), (0:ℚ) ≤ z := by
    intro z hz
    simp only [List.mem_map] at hz
    obtain ⟨pq, _, hpq⟩ := hz
    subst hpq
    split_ifs
    · simp only [repeatedPartnersPenalty]
      positivity
    · exact le_refl 0
  have hpart := le_trans hterm (List.single_le_sum hsumnn _ hmem2)
  have h2 : (0:ℚ) ≤ ((ta.flatMap (fun p => tb.map (fun q => (p, q)))).map (fun pq =>
      let c := opponentCount ms pq.1 pq.2
      if 0 < c then repeatedOpponentsPenalty * (c : ℚ) ^ 2 else 0)).sum := by
    apply List.sum_nonneg
    intro z hz
    simp only [List.mem_map] at hz
    obtain ⟨pq, _, hpq⟩ := hz
    subst hpq
    split_ifs
    · simp only [repeatedOpponentsPenalty]
      positivity
    · exact le_refl 0
  have h3 : (0:ℚ) ≤ ((ta ++ tb).map (fun pid =>
      if playedTerrain ms pid ter then repeatedTerrainsPenalty else 0)).sum := by
    apply List.sum_nonneg
    intro z hz
    simp only [List.mem_map] at hz
    obtain ⟨pid, _, hpid⟩ := hz
    subst hpid
    split_ifs
    · norm_num [repeatedTerrainsPenalty]
    · exact le_refl 0
  have h4 : (0:ℚ) ≤ if isFallbackFormat mode f then
      fallbackFormatPenaltyPerPlayer * (((ta ++ tb).length : ℚ)) else 0 := by
    split_ifs
    · simp only [fallbackFormatPenaltyPerPlayer]
      positivity
    · exact le_refl 0
  linarith

/-- A non-empty round whose matches are all recorded in the tracker it is
scored against has a strictly positive total score. -/
theorem scoreMatches_pos (mode : TournamentMode) (trk ms : List Match) (hne : ms ≠ [])
    (hsz : ∀ m ∈ ms, 2 ≤ m.team_a_player_ids.length)
    (hmem : ∀ m ∈ ms, m ∈ trk) : 0 < scoreMatches mode trk ms := by
  obtain ⟨m, ms2, rfl⟩ := List.exists_cons_of_ne_nil hne
  have hlen := hsz m (List.mem_cons_self m ms2)
  rcases hta : m.team_a_player_ids with _ | ⟨x, tl⟩
  · rw [hta] at hlen; simp at hlen
  rcases htl : tl with _ | ⟨y, rest⟩
  · rw [hta, htl] at hlen; simp at hlen
  rw [htl] at hta
  have hpqmem : pairKey x y ∈ matchPartnerPairs m := by
    unfold matchPartnerPairs
    apply List.mem_map.mpr
    refine ⟨(x, y), List.mem_append_left _ ?_, rfl⟩
    rw [hta]
    simp [pairsOf]
  have hc := partnerCount_ge_of_mem trk m (hmem m (List.mem_cons_self m ms2)) x y hpqmem
  have h10 := scoreMatch_ge_partner mode trk m.team_a_player_ids m.team_b_player_ids
    m.terrain_label m.format x y rest hta hc
  have hnn : ∀ z ∈ (m :: ms2).map (fun m2 =>
      scoreMatch mode trk m2.team_a_player_ids m2.team_b_player_ids
        m2.terrain_label m2.format), (0:ℚ) ≤ z := by
    intro z hz
    simp only [List.mem_map] at hz
    obtain ⟨m2, _, hm2⟩ := hz
    subst hm2
    exact scoreMatch_nonneg mode trk m2.team_a_player_ids m2.team_b_player_ids
      m2.terrain_label m2.format
  have hmem2 : scoreMatch mode trk m.team_a_player_ids m.team_b_player_ids
      m.terrain_label m.format ∈ (m :: ms2).map (fun m2 =>
      scoreMatch mode trk m2.team_a_player_ids m2.team_b_player_ids
        m2.terrain_label m2.format) :=
    List.mem_map.mpr ⟨m, List.mem_cons_self m ms2, rfl⟩
  have hsum := List.single_le_sum hnn _ hmem2
  unfold scoreMatches
  have hpen : (0:ℚ) < repeatedPartnersPenalty := by norm_num [repeatedPartnersPenalty]
  linarith

/-- Counterexample to claim C2: with no previous rounds, a generated round
with one fresh doublette match has zero repeats relative to the previous
rounds (its score against the prior-only tracker is 0), yet the attempt
score generate_round computes — against the scratch tracker in the state
generation left it, which already contains the candidate's own matches —
is 48, not 0. -/
theorem claim_C2_counterexample :
    genMatchesForRound ftSized TournamentMode.doublette [1, 2, 3, 4] 0 [] =
      Except.ok ([mFreshRound], [mFreshRound]) ∧
    scoreMatches TournamentMode.doublette [] [mFreshRound] = 0 ∧
    attemptScore TournamentMode.doublette [mFreshRound] [mFreshRound] = 48 ∧
    (48 : ℚ) ≠ 0 := by
  refine ⟨rfl, ?_, ?_, by norm_num⟩
  · simp +decide [scoreMatches, scoreMatch, partnerCount, opponentCount, playedTerrain,
      isFallbackFormat, matchPartnerPairs, matchOpponentPairs, pairsOf, pairKey, mFreshRound,
      Match.all_player_ids, List.count_cons, List.count_nil, List.flatMap]
  · simp +decide [attemptScore, scoreMatches, scoreMatch, partnerCount, opponentCount,
      playedTerrain, isFallbackFormat, matchPartnerPairs, matchOpponentPairs, pairsOf, pairKey,
      mFreshRound, repeatedPartnersPenalty, repeatedOpponentsPenalty, repeatedTerrainsPenalty,
      Match.all_player_ids, List.count_cons, List.count_nil, List.flatMap]
    norm_num

/-- Claim C2 as amended: for every team chooser, when the generation
succeeds the scratch tracker that generate_round scores the candidate
against equals the previous rounds' matches followed by the candidate
round's own matches; consequently the attempt score equals the score
against that extended history, and for a size-honouring chooser it is
strictly positive, never 0, even for a round with no repeats relative to
the previous rounds. -/
theorem claim_C2 : ∀ (ft : List Nat → Nat → MatchFormat → Option (List Nat))
    (mode : TournamentMode) (players : List Nat) (ri : Nat) (prior : List Match)
    (ms trkOut : List Match),
    genMatchesForRound ft mode players ri prior = Except.ok (ms, trkOut) →
    trkOut = prior ++ ms ∧
    attemptScore mode trkOut ms = scoreMatches mode (prior ++ ms) ms ∧
    ((∀ av s f2 t, ft av s f2 = some t → t.length = s) →
      0 < attemptScore mode trkOut ms) := by
  intro ft mode players ri prior ms trkOut h
  obtain ⟨htrk, hne, hsz⟩ := genMatchesForRound_spec ft mode players ri prior ms trkOut h
  refine ⟨htrk, by rw [htrk]; rfl, ?_⟩
  intro hft
  have hmem : ∀ m ∈ ms, m ∈ trkOut := by
    rw [htrk]
    intro m hm
    exact List.mem_append_right prior hm
  exact scoreMatches_pos mode trkOut ms hne (hsz hft) hmem

/-- Witness for claim C2 at the concrete 4-player doublette run. -/
theorem claim_C2_witness :
    (0 : ℚ) < attemptScore TournamentMode.doublette [mFreshRound] [mFreshRound] := by
  refine (claim_C2 ftSized TournamentMode.doublette [1, 2, 3, 4] 0 [] [mFreshRound]
    [mFreshRound] rfl).2.2 ?_
  intro av s f t h
  unfold ftSized at h
  split_ifs at h with h1 h2
  · injection h with h3
    rw [← h3, h1.1]
    rfl
  · injection h with h3
    rw [← h3, h2.1]
    rfl

/-- Counterexample to claim C5: after a successful generate_round at round
index 0 with no previous rounds, the live tracker is empty and in
particular does not contain the newly generated round's matches, contrary
to the claim that they are appended before the call returns. -/
theorem claim_C5_counterexample :
    (generateRoundEffect TournamentMode.doublette [] 0 [] [mFreshRound]).2 = [] ∧
    (generateRoundEffect TournamentMode.doublette [] 0 [] [mFreshRound]).2 ≠
      ([] : List Match) ++ [mFreshRound] := by
  constructor
  · rfl
  · decide

/-- Claim C5 as amended: the quality report of generate_round is computed
against the live tracker holding only the previous rounds' matches (reset
first when round_index is 0), and the call returns with that tracker
unchanged — the new round's matches are not appended to it, so a fresh
match of the new round is absent from the tracker after the call. -/
theorem claim_C5 : ∀ (mode : TournamentMode) (pre : List Match) (ri : Nat)
    (prevRounds : List (List Match)) (best : List Match),
    (generateRoundEffect mode pre ri prevRounds best).1 =
      generateQualityReport mode (liveTrackerForRound pre ri prevRounds) best ∧
    (generateRoundEffect mode pre ri prevRounds best).1.total_score =
      scoreMatches mode (liveTrackerForRound pre ri prevRounds) best ∧
    (generateRoundEffect mode pre ri prevRounds best).2 =
      liveTrackerForRound pre ri prevRounds ∧
    (∀ m ∈ best, m ∉ pre → m ∉ prevRounds.flatten →
      m ∉ (generateRoundEffect mode pre ri prevRounds best).2) := by
  intro mode pre ri prevRounds best
  refine ⟨rfl, rfl, rfl, ?_⟩
  intro m hm hpre hflat hmem
  unfold generateRoundEffect liveTrackerForRound at hmem
  simp only [] at hmem
  rcases List.mem_append.mp hmem with h1 | h1
  · by_cases hri : ri = 0
    · rw [if_pos hri] at h1
      exact absurd h1 (List.not_mem_nil m)
    · rw [if_neg hri] at h1
      exact hpre h1
  · exact hflat h1

/-- Witness for claim C5 at round index 1 with one previous round. -/
theorem claim_C5_witness :
    (generateRoundEffect TournamentMode.doublette [] 1 [[mPartnerOnce]]
      [mFreshRound]).1.total_score =
      scoreMatches TournamentMode.doublette [mPartnerOnce] [mFreshRound] ∧
    mFreshRound ∉
      (generateRoundEffect TournamentMode.doublette [] 1 [[mPartnerOnce]] [mFreshRound]).2 := by
  have h := claim_C5 TournamentMode.doublette [] 1 [[mPartnerOnce]] [mFreshRound]
  exact ⟨h.2.1, h.2.2.2 mFreshRound (List.mem_singleton.mpr rfl)
    (List.not_mem_nil mFreshRound) (by decide)⟩

/-- Inversion of firstSome: a successful search comes from some element of
the candidate list. -/
theorem firstSome_eq_some {α β : Type} (l : List α) (f : α → Option β) (b : β)
    (h : firstSome l f = some b) : ∃ x, x ∈ l ∧ f x = some b := by
  induction l with
  | nil => rw [firstSome] at h; exact absurd h (by simp)
  | cons x xs ih =>
    rw [firstSome] at h
    cases hfx : f x with
    | some b2 =>
      rw [hfx] at h
      injection h with h2
      subst h2
      exact ⟨x, List.mem_cons_self x xs, hfx⟩
    | none =>
      rw [hfx] at h
      obtain ⟨y, hy, hfy⟩ := ih h
      exact ⟨y, List.mem_cons_of_mem x hy, hfy⟩

/-- Partner counts add over concatenated histories. -/
theorem partnerCount_append (l1 l2 : List Match) (p q : Nat) :
    partnerCount (l1 ++ l2) p q = partnerCount l1 p q + partnerCount l2 p q := by
  unfold partnerCount
  rw [List.map_append, List.sum_append]

/-- Opponent counts add over concatenated histories. -/
theorem opponentCount_append (l1 l2 : List Match) (p q : Nat) :
    opponentCount (l1 ++ l2) p q = opponentCount l1 p q + opponentCount l2 p q := by
  unfold opponentCount
  rw [List.map_append, List.sum_append]

/-- No-repeat against an extended history implies no-repeat against the
prefix. -/
theorem strictOkAgainst_of_append (trk ext : List Match) (m : Match)
    (h : strictOkAgainst (trk ++ ext) m) : strictOkAgainst trk m := by
  constructor
  · intro pq hpq
    have h2 := h.1 pq hpq
    rw [partnerCount_append] at h2
    omega
  · intro p hp q hq
    have h2 := h.2 p hp q hq
    rw [opponentCount_append] at h2
    omega

/-- At the STRICT level, _is_match_valid_with_tracker accepts a match only
when every intra-team pair has partner count 0 and every cross pair has
opponent count 0 in the tracker. -/
theorem strictOk_of_valid (ta tb : List Nat) (trk : List Match)
    (h : isMatchValidWithTracker ta tb levelStrict trk = true) :
    (∀ pq ∈ pairsOf ta ++ pairsOf tb, partnerCount trk pq.1 pq.2 = 0) ∧
    (∀ p ∈ ta, ∀ q ∈ tb, opponentCount trk p q = 0) := by
  unfold isMatchValidWithTracker levelStrict levelAllowRepeatedPartners
    levelAllowRepeatedOpponents at h
  rw [Bool.and_eq_true] at h
  obtain ⟨h1, h2⟩ := h
  rw [List.all_eq_true] at h1 h2
  constructor
  · intro pq hpq
    have h3 := h1 pq hpq
    simp at h3
    exact h3
  · intro p hp q hq
    have h3 := h2 (p, q) (List.mem_flatMap.mpr ⟨p, hp, List.mem_map.mpr ⟨q, hq, rfl⟩⟩)
    simp at h3
    exact h3

/-- Soundness of the backtracking recursion at the STRICT level: every
match of a returned assignment is either already in the accumulator or
has no repeated partners and no repeated opponents with respect to the
tracker state at its recursion point, hence (by monotonicity) with respect
to the initial tracker. -/
theorem btRec_sound (vt : ValidTeams) (ri : Nat) :
    ∀ (reqs : List (MatchFormat × MatchFormat)) (used : List Nat) (acc : List Match)
      (trk : List Match) (idx : Nat) (ms : List Match),
    btRec vt levelStrict ri reqs used acc trk idx = some ms →
    ∀ m ∈ ms, m ∈ acc ∨ strictOkAgainst trk m := by
  intro reqs
  induction reqs with
  | nil =>
    intro used acc trk idx ms h m hm
    rw [btRec] at h
    injection h with h2
    subst h2
    exact Or.inl hm
  | cons r rest ih =>
    obtain ⟨fa, fb⟩ := r
    intro used acc trk idx ms h m hm
    rw [btRec] at h
    obtain ⟨ta, hta_mem, hta⟩ := firstSome_eq_some _ _ _ h
    obtain ⟨tb, htb_mem, htb⟩ := firstSome_eq_some _ _ _ hta
    by_cases hv : isMatchValidWithTracker ta tb levelStrict trk = true
    · rw [if_pos hv] at htb
      have hrec := ih _ _ _ _ ms htb m hm
      rcases hrec with hacc | hok
      · rcases List.mem_append.mp hacc with hin | hnew
        · exact Or.inl hin
        · rcases List.mem_singleton.mp hnew with rfl
          right
          have hsv := strictOk_of_valid ta tb trk hv
          exact ⟨hsv.1, hsv.2⟩
      · exact Or.inr (strictOkAgainst_of_append trk _ m hok)
    · rw [if_neg hv] at htb
      exact absurd htb (by simp)

end Petanque
namespace Petanque

/-- A STRICT-level backtracking result has no repeated partner or opponent
pairs with respect to the prior history. -/
theorem btFindMatches_strict (vt : ValidTeams) (nb3 nb2 nbh ri : Nat)
    (prior ms : List Match)
    (h : btFindMatches vt nb3 nb2 nbh ri levelStrict prior = some ms) :
    ∀ m ∈ ms, strictOkAgainst prior m := by
  unfold btFindMatches at h
  by_cases he : (buildMatchRequirements nb3 nb2 nbh).isEmpty
  · rw [if_pos he] at h
    injection h with h2
    subst h2
    intro m hm
    exact absurd hm (List.not_mem_nil m)
  · rw [if_neg he] at h
    intro m hm
    rcases btRec_sound vt ri (buildMatchRequirements nb3 nb2 nbh) [] [] prior 0 ms h m hm with
      hin | hok
    · exact absurd hin (List.not_mem_nil m)
    · exact hok

end Petanque
namespace Petanque

/-- Control flow of generate_round_deterministic: a successful result comes
from the first constraint level, in the fixed order STRICT,
ALLOW_REPEATED_OPPONENTS, ALLOW_REPEATED_PARTNERS, whose backtracking
search succeeds, and that level is returned with the matches. -/
theorem genRoundDet_levels (mode : TournamentMode) (players : List Player) (ri : Nat)
    (prior : List Match) (ms : List Match) (L : Nat)
    (h : generateRoundDeterministic mode players ri prior = Except.ok (ms, L)) :
    (L = levelStrict ∧
      btFindMatches (buildAllValidTeams players mode)
        (findOptimalMatchDistribution players.length mode).1
        (findOptimalMatchDistribution players.length mode).2.1
        (findOptimalMatchDistribution players.length mode).2.2 ri levelStrict prior =
        some ms) ∨
    (L = levelAllowRepeatedOpponents ∧
      btFindMatches (buildAllValidTeams players mode)
        (findOptimalMatchDistribution players.length mode).1
        (findOptimalMatchDistribution players.length mode).2.1
        (findOptimalMatchDistribution players.length mode).2.2 ri levelStrict prior = none ∧
      btFindMatches (buildAllValidTeams players mode)
        (findOptimalMatchDistribution players.length mode).1
        (findOptimalMatchDistribution players.length mode).2.1
        (findOptimalMatchDistribution players.length mode).2.2 ri
        levelAllowRepeatedOpponents prior = some ms) ∨
    (L = levelAllowRepeatedPartners ∧
      btFindMatches (buildAllValidTeams players mode)
        (findOptimalMatchDistribution players.length mode).1
        (findOptimalMatchDistribution players.length mode).2.1
        (findOptimalMatchDistribution players.length mode).2.2 ri levelStrict prior = none ∧
      btFindMatches (buildAllValidTeams players mode)
        (findOptimalMatchDistribution players.length mode).1
        (findOptimalMatchDistribution players.length mode).2.1
        (findOptimalMatchDistribution players.length mode).2.2 ri
        levelAllowRepeatedOpponents prior = none ∧
      btFindMatches (buildAllValidTeams players mode)
        (findOptimalMatchDistribution players.length mode).1
        (findOptimalMatchDistribution players.length mode).2.1
        (findOptimalMatchDistribution players.length mode).2.2 ri
        levelAllowRepeatedPartners prior = some ms) := by
  unfold generateRoundDeterministic at h
  by_cases hp : players.length < 4
  · rw [if_pos hp] at h
    exact absurd h (by simp)
  rw [if_neg hp] at h
  dsimp only at h
  cases hb0 : btFindMatches (buildAllValidTeams players mode)
      (findOptimalMatchDistribution players.length mode).1
      (findOptimalMatchDistribution players.length mode).2.1
      (findOptimalMatchDistribution players.length mode).2.2 ri levelStrict prior with
  | some ms0 =>
    rw [hb0] at h
    injection h with h2
    injection h2 with hms hL
    subst hms
    exact Or.inl ⟨hL.symm, rfl⟩
  | none =>
    rw [hb0] at h
    cases hb1 : btFindMatches (buildAllValidTeams players mode)
        (findOptimalMatchDistribution players.length mode).1
        (findOptimalMatchDistribution players.length mode).2.1
        (findOptimalMatchDistribution players.length mode).2.2 ri
        levelAllowRepeatedOpponents prior with
    | some ms1 =>
      rw [hb1] at h
      injection h with h2
      injection h2 with hms hL
      subst hms
      exact Or.inr (Or.inl ⟨hL.symm, rfl, rfl⟩)
    | none =>
      rw [hb1] at h
      cases hb2 : btFindMatches (buildAllValidTeams players mode)
          (findOptimalMatchDistribution players.length mode).1
          (findOptimalMatchDistribution players.length mode).2.1
          (findOptimalMatchDistribution players.length mode).2.2 ri
          levelAllowRepeatedPartners prior with
      | some ms2 =>
        rw [hb2] at h
        injection h with h2
        injection h2 with hms hL
        subst hms
        exact Or.inr (Or.inr ⟨hL.symm, rfl, rfl, rfl⟩)
      | none =>
        rw [hb2] at h
        exact absurd h (by simp)

/-- When every constraint level fails on a large-enough roster, the call
fails with the relaxed-constraints error. -/
theorem genRoundDet_error (mode : TournamentMode) (players : List Player) (ri : Nat)
    (prior : List Match) (hp : 4 ≤ players.length)
    (h0 : btFindMatches (buildAllValidTeams players mode)
      (findOptimalMatchDistribution players.length mode).1
      (findOptimalMatchDistribution players.length mode).2.1
      (findOptimalMatchDistribution players.length mode).2.2 ri levelStrict prior = none)
    (h1 : btFindMatches (buildAllValidTeams players mode)
      (findOptimalMatchDistribution players.length mode).1
      (findOptimalMatchDistribution players.length mode).2.1
      (findOptimalMatchDistribution players.length mode).2.2 ri
      levelAllowRepeatedOpponents prior = none)
    (h2 : btFindMatches (buildAllValidTeams players mode)
      (findOptimalMatchDistribution players.length mode).1
      (findOptimalMatchDistribution players.length mode).2.1
      (findOptimalMatchDistribution players.length mode).2.2 ri
      levelAllowRepeatedPartners prior = none) :
    generateRoundDeterministic mode players ri prior = Except.error errRelaxedFailed := by
  unfold generateRoundDeterministic
  rw [if_neg (by omega)]
  dsimp only
  rw [h0, h1, h2]

/-- Claim C3: generate_round_deterministic tries STRICT,
ALLOW_REPEATED_OPPONENTS, ALLOW_REPEATED_PARTNERS in that fixed order and
returns the first level that yields a complete assignment together with
that level, without consulting more relaxed levels; a round returned at
STRICT level has no pair of team-mates ever partnered before and no pair
of cross-team players ever opposed before, relative to the supplied prior
rounds; and when even the most relaxed level finds nothing, the call
raises the infeasibility error. -/
theorem claim_C3 : ∀ (mode : TournamentMode) (players : List Player) (ri : Nat)
    (prior : List Match),
    (∀ ms L, generateRoundDeterministic mode players ri prior = Except.ok (ms, L) →
      ((L = levelStrict ∧
        btFindMatches (buildAllValidTeams players mode)
          (findOptimalMatchDistribution players.length mode).1
          (findOptimalMatchDistribution players.length mode).2.1
          (findOptimalMatchDistribution players.length mode).2.2 ri levelStrict prior =
          some ms) ∨
      (L = levelAllowRepeatedOpponents ∧
        btFindMatches (buildAllValidTeams players mode)
          (findOptimalMatchDistribution players.length mode).1
          (findOptimalMatchDistribution players.length mode).2.1
          (findOptimalMatchDistribution players.length mode).2.2 ri levelStrict prior =
          none ∧
        btFindMatches (buildAllValidTeams players mode)
          (findOptimalMatchDistribution players.length mode).1
          (findOptimalMatchDistribution players.length mode).2.1
          (findOptimalMatchDistribution players.length mode).2.2 ri
          levelAllowRepeatedOpponents prior = some ms) ∨
      (L = levelAllowRepeatedPartners ∧
        btFindMatches (buildAllValidTeams players mode)
          (findOptimalMatchDistribution players.length mode).1
          (findOptimalMatchDistribution players.length mode).2.1
          (findOptimalMatchDistribution players.length mode).2.2 ri levelStrict prior =
          none ∧
        btFindMatches (buildAllValidTeams players mode)
          (findOptimalMatchDistribution players.length mode).1
          (findOptimalMatchDistribution players.length mode).2.1
          (findOptimalMatchDistribution players.length mode).2.2 ri
          levelAllowRepeatedOpponents prior = none ∧
        btFindMatches (buildAllValidTeams players mode)
          (findOptimalMatchDistribution players.length mode).1
          (findOptimalMatchDistribution players.length mode).2.1
          (findOptimalMatchDistribution players.length mode).2.2 ri
          levelAllowRepeatedPartners prior = some ms))) ∧
    (∀ ms, generateRoundDeterministic mode players ri prior =
        Except.ok (ms, levelStrict) →
      ∀ m, m ∈ ms → strictOkAgainst prior m) ∧
    (4 ≤ players.length →
      btFindMatches (buildAllValidTeams players mode)
        (findOptimalMatchDistribution players.length mode).1
        (findOptimalMatchDistribution players.length mode).2.1
        (findOptimalMatchDistribution players.length mode).2.2 ri levelStrict prior = none →
      btFindMatches (buildAllValidTeams players mode)
        (findOptimalMatchDistribution players.length mode).1
        (findOptimalMatchDistribution players.length mode).2.1
        (findOptimalMatchDistribution players.length mode).2.2 ri
        levelAllowRepeatedOpponents prior = none →
      btFindMatches (buildAllValidTeams players mode)
        (findOptimalMatchDistribution players.length mode).1
        (findOptimalMatchDistribution players.length mode).2.1
        (findOptimalMatchDistribution players.length mode).2.2 ri
        levelAllowRepeatedPartners prior = none →
      generateRoundDeterministic mode players ri prior = Except.error errRelaxedFailed) := by
  intro mode players ri prior
  refine ⟨ fun ms L h => genRoundDet_levels mode players ri prior ms L h, ?_,
    fun hp h0 h1 h2 => genRoundDet_error mode players ri prior hp h0 h1 h2 ⟩
  intro ms h m hm
  rcases genRoundDet_levels mode players ri prior ms levelStrict h with
    ⟨ _, hb ⟩ | ⟨ hL, _ ⟩ | ⟨ hL, _ ⟩
  · exact btFindMatches_strict _ _ _ _ _ _ _ hb m hm
  · exact absurd hL (by decide)
  · exact absurd hL (by decide)

/-- Witness for claim C3: with four fully cross-eligible players in
doublette mode and no history, the call succeeds at STRICT level with the
single match 1-2 versus 3-4, whose pairs have zero prior counts; with
four tireur-less players every level fails and the call errors. -/
theorem claim_C3_witness :
    partnerCount ([] : List Match) 1 2 = 0 ∧
    opponentCount ([] : List Match) 1 3 = 0 ∧
    generateRoundDeterministic TournamentMode.doublette playersNoTireur 0 [] =
      Except.error errRelaxedFailed := by
  have h2 := (claim_C3 TournamentMode.doublette players4 0 []).2.1 [mFreshRound] rfl
    mFreshRound (List.mem_singleton.mpr rfl)
  exact ⟨ h2.1 (1, 2) (by decide), h2.2 1 (by decide) 3 (by decide),
    (claim_C3 TournamentMode.doublette playersNoTireur 0 []).2.2 (by decide) rfl rfl rfl ⟩

end Petanque
